import Mathlib

/-
Verification development for the stimulus R binding generators
(src/stimulus/generators/r.py).

The file shallowly embeds the three code generators of r.py:
  - RRCodeGenerator.generate_function  (high-level R dialect),
  - RCCodeGenerator.generate_function  (C shim dialect, chunk_* emitters),
  - RInitCodeGenerator                 (registration side artifact),
as executable Lean functions over explicit descriptor/type-rule data.

Python strings are modelled as Lean String; Python str.replace,
substring membership (the `in` operator on strings) and the two regular
expressions used by the source are implemented below with Python's
semantics (left-to-right, non-overlapping, replacement text not
re-scanned).  Python values that are "either a string or a dict keyed by
mode" are modelled by the TypeRule union.  Code paths on which the
Python would raise (TypeError / AttributeError / KeyError / ValueError)
are modelled with Except.error carrying the exception kind.
-/

deriving instance DecidableEq for Except

/-! ## String helpers (Python semantics) -/

/-- Python `needle` being a prefix of `hay` (char lists): `listStartsWith pat l`
is true when `pat` is a prefix of `l`. -/
def listStartsWith : List Char → List Char → Bool
  | [], _ => true
  | _ :: _, [] => false
  | p :: ps, c :: cs => p = c && listStartsWith ps cs

/-- Python `pat in s` for char lists: some position of `l` starts with `pat`. -/
def listContainsPat (pat : List Char) : List Char → Bool
  | [] => pat.isEmpty
  | c :: cs => listStartsWith pat (c :: cs) || listContainsPat pat cs

/-- Python `pat in s` (substring containment) on strings. -/
def strContainsB (s pat : String) : Bool :=
  listContainsPat pat.data s.data

/-- Python `str.replace` worker: replace every non-overlapping occurrence of
the non-empty pattern `p :: ps` by `repl`, scanning left to right; the
replacement text is not re-scanned.  `fuel` bounds the recursion and is
always called with at least the length of the scanned list, so the
`fuel = 0` branch is never taken on the wrapper's calls. -/
def listReplaceGo (p : Char) (ps repl : List Char) : Nat → List Char → List Char
  | _, [] => []
  | 0, l => l
  | fuel + 1, c :: cs =>
      if listStartsWith (p :: ps) (c :: cs) then
        repl ++ listReplaceGo p ps repl fuel (List.drop ps.length cs)
      else
        c :: listReplaceGo p ps repl fuel cs

/-- Python `s.replace(pat, repl)` (the source never calls it with an empty
pattern; for an empty pattern we return `s` unchanged). -/
def strReplace (s pat repl : String) : String :=
  match pat.data with
  | [] => s
  | p :: ps => ⟨listReplaceGo p ps repl.data s.data.length s.data⟩

/-- Zero or more decimal digits followed by the character `%`
(the tail of the regex `%I[0-9]*%` after `%I`). -/
def digitsThenPct : List Char → Bool
  | [] => false
  | c :: rest => if c.isDigit then digitsThenPct rest else c = '%'

/-- Does the list start with a match of the regex `%I[0-9]*%`? -/
def isResidualStart : List Char → Bool
  | '%' :: 'I' :: r2 => digitsThenPct r2
  | _ => false

/-- Python `re.search("%I[0-9]*%", s)` being non-None, on char lists. -/
def residualFrom : List Char → Bool
  | [] => false
  | c :: rest => isResidualStart (c :: rest) || residualFrom rest

/-- Python `re.search("%I[0-9]*%", s)` being non-None. -/
def hasResidualI (s : String) : Bool :=
  residualFrom s.data

/-- After `%I` and at least one digit: more digits then `%`; returns the
suffix after the match of `%I[0-9]+%`. -/
def matchDigitsMore : List Char → Option (List Char)
  | [] => none
  | c :: rest =>
      if c.isDigit then matchDigitsMore rest
      else if c = '%' then some rest else none

/-- Match `I[0-9]+%` at the front of a list (the part of `%I[0-9]+%` after
the opening `%`); returns the suffix after the match. -/
def matchNumberedI : List Char → Option (List Char)
  | 'I' :: c :: rest => if c.isDigit then matchDigitsMore rest else none
  | _ => none

/-- Python `re.sub("%I[0-9]+%", "", s)` worker; `fuel` is at least the
length of the scanned list on every call of the wrapper. -/
def stripNumGo : Nat → List Char → List Char
  | _, [] => []
  | 0, l => l
  | fuel + 1, c :: cs =>
      if c = '%' then
        match matchNumberedI cs with
        | some suffix => stripNumGo fuel suffix
        | none => c :: stripNumGo fuel cs
      else c :: stripNumGo fuel cs

/-- Python `re.sub("%I[0-9]+%", "", s)`. -/
def stripNumI (s : String) : String :=
  ⟨stripNumGo s.data.length s.data⟩

/-- Python `s.split(sep)` worker over char lists; `fuel` is at least the
length of the scanned list on every call of the wrapper. -/
def splitGoL (s1 : Char) (srest : List Char) :
    Nat → List Char → List Char → List (List Char)
  | _, [], acc => [acc.reverse]
  | 0, l, acc => [acc.reverse ++ l]
  | fuel + 1, c :: cs, acc =>
      if listStartsWith (s1 :: srest) (c :: cs) then
        acc.reverse :: splitGoL s1 srest fuel (List.drop srest.length cs) []
      else splitGoL s1 srest fuel cs (c :: acc)

/-- Python `s.split(sep)` for a non-empty separator. -/
def strSplit (s sep : String) : List String :=
  match sep.data with
  | [] => [s]
  | c :: cs => (splitGoL c cs s.data.length s.data []).map (fun l => ⟨l⟩)

/-- Python `s.strip()`: drop leading and trailing whitespace. -/
def strTrim (s : String) : String :=
  ⟨((s.data.dropWhile Char.isWhitespace).reverse.dropWhile Char.isWhitespace).reverse⟩

/-- Python `textwrap.indent(s, "  ")`: prefix two spaces to every line that
is not solely whitespace. -/
def indentTwo (s : String) : String :=
  String.intercalate "\n"
    ((strSplit s "\n").map (fun l => if strTrim l = "" then l else "  " ++ l))

/-- Python `"%-42s" % s`: left-justify in a field of width 42. -/
def pad42 (s : String) : String :=
  s ++ String.mk (List.replicate (42 - s.length) ' ')

/-- Python str.format with a width-2 right-align spec (r.py line 527):
right-justify the decimal rendering in a field of width 2. -/
def padLeft2 (n : Nat) : String :=
  let s := toString n
  String.mk (List.replicate (2 - s.length) ' ') ++ s

/-- Python dict insertion (insertion order kept, existing key updated in
place), used to model building `gattrs_dict`. -/
def dictInsert (l : List (String × String)) (k v : String) : List (String × String) :=
  if (l.lookup k).isSome then
    l.map (fun kv => if kv.1 = k then (k, v) else kv)
  else
    l ++ [(k, v)]

/-- Split a string at the first occurrence of the non-empty separator
(Python `s.split(sep, 1)` when it succeeds), on char lists. -/
def splitFirstGo (sep : List Char) : List Char → Option (List Char × List Char)
  | [] => none
  | c :: cs =>
      if listStartsWith sep (c :: cs) then
        some ([], List.drop (sep.length - 1) cs)
      else
        match splitFirstGo sep cs with
        | some (pre, post) => some (c :: pre, post)
        | none => none

/-- Python `s.split(sep, 1)` returning the two pieces, or `none` when the
separator does not occur (in which case the source's tuple unpacking
raises ValueError). -/
def splitFirst (s sep : String) : Option (String × String) :=
  match splitFirstGo sep.data s.data with
  | some (pre, post) => some (⟨pre⟩, ⟨post⟩)
  | none => none

/-! ## Data model

`ParamMode` and `ParamSpec` are imported by r.py from `stimulus.model`,
which is not part of the sources under verification; their shape is
modelled from the spec (section 3): a parameter has a name, a type key,
a mode IN/OUT/INOUT, an optional default literal and an ordered
dependency list, with `is_input` = mode ∈ {IN, INOUT} and
`is_output` = mode ∈ {OUT, INOUT}. -/

inductive ParamMode where
  | IN
  | OUT
  | INOUT
deriving DecidableEq, Repr

/-- Modelled from the spec: `mode_str` renders the mode the way the rule
tables key it. -/
def ParamMode.modeStr : ParamMode → String
  | .IN => "IN"
  | .OUT => "OUT"
  | .INOUT => "INOUT"

structure ParamSpec where
  name : String
  type : String
  mode : ParamMode
  default : Option String := none
  dependencies : List String := []
deriving DecidableEq, Repr

/-- Modelled from the spec: `is_input` = mode ∈ {IN, INOUT}. -/
def ParamSpec.is_input (p : ParamSpec) : Bool :=
  p.mode = ParamMode.IN || p.mode = ParamMode.INOUT

/-- Modelled from the spec: `is_output` = mode ∈ {OUT, INOUT}. -/
def ParamSpec.is_output (p : ParamSpec) : Bool :=
  p.mode = ParamMode.OUT || p.mode = ParamMode.INOUT

/-- A type-rule fragment is either a single template string or a
mode-keyed mapping of template strings (spec section 3 / the Python
value being either `str` or `dict`). -/
inductive TypeRule where
  | flat (s : String)
  | byMode (entries : List (String × String))
deriving DecidableEq, Repr

/-- One type's rule record.  `rules` holds the named template fragments
(HEADER, INCONV, CALL, OUTCONV, ...).  `defaults` and `ctype` model the
two TypeDescriptor methods r.py calls that live outside src/
(stimulus.model.types): `translate_default_value` (modelled from the
spec/source comments as a lookup in the type's language-specific
default dictionary) and `declare_c_variable` (modelled from the spec as
emission of a C declaration from the type's DECL/CTYPE fragment). -/
structure TypeDesc where
  rules : List (String × TypeRule)
  defaults : List (String × String) := []
  ctype : String := "int"
deriving DecidableEq, Repr

/-- Modelled from the spec: `translate_default_value` looks the default
literal up in the type's language-specific default dictionary; an
absent entry means the default is ignored silently (empty result). -/
def TypeDesc.translate_default_value (t : TypeDesc) (d : String) : String :=
  (t.defaults.lookup d).getD ""

/-- Modelled from the spec: `declare_c_variable` emits one C declaration
for the given variable name from the type's DECL/CTYPE fragment. -/
def TypeDesc.declare_c_variable (t : TypeDesc) (n : String) : String :=
  t.ctype ++ " " ++ n ++ ";"

/-- The type-rule table: type name to rule record. -/
def TypeTable := List (String × TypeDesc)

/-- Python `self.get_type_descriptor(name)`: table lookup, raising
KeyError when the type is unknown. -/
def getTypeDesc (tbl : TypeTable) (n : String) : Except String TypeDesc :=
  match List.lookup n tbl with
  | some t => Except.ok t
  | none => Except.error ("KeyError: " ++ n)

/-- A value stored under the function-level GATTR keys: the source
accepts either a dict or a `name IS value, ...` string (r.py lines
228-238). -/
inductive GattrVal where
  | str (s : String)
  | dict (entries : List (String × String))
deriving DecidableEq, Repr

/-- The function-level "R" namespace read by the RR generator tail
(GATTR, GATTR-PARAM, CLASS, PP keys; r.py lines 225-262). -/
structure RNamespace where
  gattr : Option GattrVal := none
  gattrParam : Option String := none
  cls : Option String := none
  pp : Option String := none
deriving DecidableEq, Repr

def emptyNS : RNamespace := ⟨none, none, none, none⟩

/-- The slice of the descriptor's `_obj` mapping that r.py reads or
writes: the "R" namespace and the four legacy `*-R` keys (r.py lines
215-225).  Modelled as a record because the accessors (`in`,
`__getitem__`) live outside src/. -/
structure DescObj where
  rNs : Option RNamespace := none
  gattrR : Option GattrVal := none
  gattrParamR : Option String := none
  classR : Option String := none
  ppR : Option String := none
deriving DecidableEq, Repr

/-- FunctionDescriptor (stimulus.model.functions, outside src/): modelled
from the spec (section 3): function name, return type, ordered
parameters, internal flag, dialect rename override, plus the `_obj`
slice above. -/
structure FunctionDescriptor where
  name : String
  return_type : String
  params : List ParamSpec
  is_internal : Bool := false
  renameR : Option String := none
  obj : DescObj := {}
deriving DecidableEq, Repr

/-- Modelled from the spec: `get_name_in_generated_code("R")` returns the
R-dialect rename override when present, else the function's name. -/
def getNameR (d : FunctionDescriptor) : String :=
  d.renameR.getD d.name

/-- The output parameters' names, in original parameter order
(`[p.name for p in params if p.is_output]`). -/
def outputNames (ps : List ParamSpec) : List String :=
  (ps.filter (·.is_output)).map (·.name)

/-! ## Dependency substitution loops

The source substitutes indexed dependency placeholders with a loop
`for i, dep in enumerate(param.dependencies): s = s.replace("%X"+str(i+1)+"%", ...)`.
The R dialect replaces `%I<k>%` by the raw dependency name (r.py lines
70-71, 113-114, 172-173); the C dialect replaces `%C<k>%` by the
`c_`-prefixed dependency name (r.py lines 382-383, 452-453). -/

def substDepsIAux (i : Nat) : String → List String → String
  | s, [] => s
  | s, d :: rest =>
      substDepsIAux (i + 1) (strReplace s ("%I" ++ toString (i + 1) ++ "%") d) rest

def substDepsI (s : String) (deps : List String) : String :=
  substDepsIAux 0 s deps

def substDepsCAux (i : Nat) : String → List String → String
  | s, [] => s
  | s, d :: rest =>
      substDepsCAux (i + 1) (strReplace s ("%C" ++ toString (i + 1) ++ "%") ("c_" ++ d)) rest

def substDepsC (s : String) (deps : List String) : String :=
  substDepsCAux 0 s deps

/-! ## RRCodeGenerator (R dialect), r.py lines 20-264 -/

/-- Modelled from the spec (section 7, lenient variant):
`check_types_of_function(function)` in the R generator logs a diagnostic
for each parameter whose type has no table entry and continues. -/
def rrCheckTypes (tbl : TypeTable) (ps : List ParamSpec) : List String :=
  ps.filterMap fun p =>
    match List.lookup p.type tbl with
    | some _ => none
    | none => some ("Unknown type " ++ p.type)

/-- The missing-dependency diagnostic of the R dialect handlers
(`log.error` at r.py lines 73-77, 116-119, 175-178): logged exactly
when a residual `%I[0-9]*%` pattern remains in the resolved fragment. -/
def rrResidualDiag (kind tname pname fname s : String) : List String :=
  if hasResidualI s then
    ["Missing " ++ kind ++ " dependency for " ++ tname ++ " " ++ pname
      ++ " in function " ++ fname]
  else []

/-- r.py lines 54-61: the header text before defaults: the dot-renamed
parameter name, overridden by a HEADER rule when one exists; `%I%` is
substituted when the text is truthy.  A non-empty dict-valued HEADER
would hit `dict.replace` and raise AttributeError. -/
def rrHeaderBase (type_desc : TypeDesc) (p : ParamSpec) : Except String String :=
  match List.lookup "HEADER" type_desc.rules with
  | some (.flat s) =>
      if s = "" then .ok "" else .ok (strReplace s "%I%" (strReplace p.name "_" "."))
  | some (.byMode m) =>
      if m = [] then .ok ""
      else .error "AttributeError: dict object has no attribute replace"
  | none =>
      if strReplace p.name "_" "." = "" then .ok ""
      else .ok (strReplace (strReplace p.name "_" ".") "%I%" (strReplace p.name "_" "."))

/-- r.py lines 62-68: append `=<translated default>` when the parameter
has a default that translates to a truthy string. -/
def rrApplyDefault (type_desc : TypeDesc) (p : ParamSpec) (h1 : String) : String :=
  match p.default with
  | some d =>
      if type_desc.translate_default_value d = "" then h1
      else h1 ++ "=" ++ type_desc.translate_default_value d
  | none => h1

/-- The fully resolved header fragment of `handle_input_argument`
(r.py lines 51-71): base text, default, then `%I<k>%` dependencies. -/
def rrHeaderFrag (tbl : TypeTable) (p : ParamSpec) : Except String String :=
  match getTypeDesc tbl p.type with
  | .error e => .error e
  | .ok type_desc =>
    match rrHeaderBase type_desc p with
    | .error e => .error e
    | .ok h1 => .ok (substDepsI (rrApplyDefault type_desc p h1) p.dependencies)

/-- r.py lines 51-78, `handle_input_argument`: the resolved header
fragment plus the diagnostics it logs (the fragment is returned even
when a residual placeholder was detected). -/
def rrHandleInputArgument (tbl : TypeTable) (rname : String) (p : ParamSpec) :
    Except String (String × List String) :=
  match rrHeaderFrag tbl p with
  | .error e => .error e
  | .ok h3 => .ok (h3, rrResidualDiag "HEADER" p.type p.name rname h3)

/-- r.py lines 80-86: the header entries of the input parameters, with
empty entries dropped, and the diagnostics in emission order. -/
def rrHeadList (tbl : TypeTable) (rname : String) :
    List ParamSpec → Except String (List String × List String)
  | [] => .ok ([], [])
  | p :: rest =>
      if p.is_input then
        match rrHandleInputArgument tbl rname p with
        | .error e => .error e
        | .ok (h, dg) =>
          match rrHeadList tbl rname rest with
          | .error e => .error e
          | .ok (hs, dgs) => .ok ((if h = "" then hs else h :: hs), dg ++ dgs)
      else rrHeadList tbl rname rest

/-- r.py lines 104-110, the INCONV selection of `handle_argument_check`:
a mode-keyed rule containing the mode yields that entry; a mode-keyed
rule without the mode makes the source compute `"  " + dict`
(TypeError); a flat rule containing the mode string as a substring
makes the source index a str with a str (TypeError); a flat rule not
containing it is used as is; no rule contributes nothing. -/
def rrInconvSelect (rule : Option TypeRule) (mode : String) : Except String String :=
  match rule with
  | some (.byMode m) =>
      match List.lookup mode m with
      | some s => .ok ("  " ++ s)
      | none => .error "TypeError: can only concatenate str (not dict) to str"
  | some (.flat s) =>
      if strContainsB s mode then .error "TypeError: string indices must be integers"
      else .ok ("  " ++ s)
  | none => .ok ""

/-- The selection applies only to input-mode parameters (r.py line 104). -/
def rrInconvSelectFor (t : TypeDesc) (p : ParamSpec) : Except String String :=
  if p.is_input then rrInconvSelect (List.lookup "INCONV" t.rules) p.mode.modeStr
  else .ok ""

/-- The fully resolved INCONV fragment of `handle_argument_check`
(r.py lines 100-114): selection, `%I%`, then `%I<k>%` dependencies. -/
def rrInconvFrag (tbl : TypeTable) (p : ParamSpec) : Except String String :=
  match getTypeDesc tbl p.type with
  | .error e => .error e
  | .ok t =>
    match rrInconvSelectFor t p with
    | .error e => .error e
    | .ok r0 =>
        .ok (substDepsI (strReplace r0 "%I%" (strReplace p.name "_" ".")) p.dependencies)

/-- r.py lines 100-121, `handle_argument_check`: the resolved fragment
plus the diagnostics it logs (the fragment is returned even when a
residual placeholder was detected). -/
def rrHandleArgumentCheck (tbl : TypeTable) (rname : String) (p : ParamSpec) :
    Except String (String × List String) :=
  match rrInconvFrag tbl p with
  | .error e => .error e
  | .ok r2 => .ok (r2, rrResidualDiag "IN" p.type p.name rname r2)

/-- r.py lines 123-125: the INCONV entries over all parameters, empty
entries dropped. -/
def rrInconvList (tbl : TypeTable) (rname : String) :
    List ParamSpec → Except String (List String × List String)
  | [] => .ok ([], [])
  | p :: rest =>
      match rrHandleArgumentCheck tbl rname p with
      | .error e => .error e
      | .ok (s, dg) =>
        match rrInconvList tbl rname rest with
        | .error e => .error e
        | .ok (l, dgs) => .ok ((if s = "" then l else s :: l), dg ++ dgs)

/-- r.py lines 141-150: the `.Call` argument loop.  Only input-mode
parameters are visited; for each, the local variable `name` is rebound
to the parameter's dot-renamed name (shadowing the R function name used
in later diagnostics), then the CALL rule (default: that name) is
appended after `%I%` substitution when truthy.  A non-empty dict CALL
would hit `dict.replace` (AttributeError).  Returns the argument list
and the final value of the shadowed `name` variable. -/
def rrCallTok (t : TypeDesc) (nm2 : String) : Except String (Option String) :=
  match List.lookup "CALL" t.rules with
  | none => if nm2 = "" then .ok none else .ok (some (strReplace nm2 "%I%" nm2))
  | some (.flat s) =>
      if s = "" then .ok none else .ok (some (strReplace s "%I%" nm2))
  | some (.byMode m) =>
      if m = [] then .ok none
      else .error "AttributeError: dict object has no attribute replace"

def rrCallLoop (tbl : TypeTable) (nm : String) :
    List ParamSpec → Except String (List String × String)
  | [] => .ok ([], nm)
  | p :: rest =>
      if p.is_input then
        match getTypeDesc tbl p.type with
        | .error e => .error e
        | .ok t =>
          match rrCallTok t (strReplace p.name "_" ".") with
          | .error e => .error e
          | .ok tok =>
            match rrCallLoop tbl (strReplace p.name "_" ".") rest with
            | .error e => .error e
            | .ok (parts, nmF) =>
              .ok ((match tok with | some c => c :: parts | none => parts), nmF)
      else rrCallLoop tbl nm rest

/-- r.py lines 154-180, `handle_output_argument`: the OUTCONV fragment
for one parameter.  A mode-keyed OUTCONV containing the parameter's
mode is used, anything else contributes the empty string (a flat rule
containing the mode as a substring would be indexed by a str:
TypeError).  `%I%` is replaced by `ipfx ++ realname`, dependencies are
substituted, a residual `%I[0-9]*%` is logged using the given
(shadowed) `fname`, and numbered residuals are stripped from the
returned text by `re.sub("%I[0-9]+%", "", ...)`. -/
def modeKeyedSelect (rule : Option TypeRule) (mode : String) : Except String String :=
  match rule with
  | some (.byMode m) =>
      match List.lookup mode m with
      | some s => .ok ("  " ++ s)
      | none => .ok ""
  | some (.flat s) =>
      if strContainsB s mode then .error "TypeError: string indices must be integers"
      else .ok ""
  | none => .ok ""

/-- The resolved (pre-stripping) OUTCONV fragment of
`handle_output_argument` (r.py lines 154-173). -/
def rrOutconvFrag (tbl : TypeTable) (realname : Option String) (ipfx : String)
    (p : ParamSpec) : Except String String :=
  match getTypeDesc tbl p.type with
  | .error e => .error e
  | .ok t =>
    match modeKeyedSelect (List.lookup "OUTCONV" t.rules) p.mode.modeStr with
    | .error e => .error e
    | .ok oc0 =>
        .ok (substDepsI (strReplace oc0 "%I%" (ipfx ++ realname.getD p.name))
              p.dependencies)

def rrHandleOutputArgument (tbl : TypeTable) (fname : String)
    (realname : Option String) (ipfx : String) (p : ParamSpec) :
    Except String (String × List String) :=
  match rrOutconvFrag tbl realname ipfx p with
  | .error e => .error e
  | .ok u => .ok (stripNumI u, rrResidualDiag "OUT" p.type p.name fname u)

/-- r.py lines 184-194: the OUTCONV entries over all parameters, empty
entries dropped (note: the filter compares the stripped text). -/
def rrOutconvList (tbl : TypeTable) (fname : String)
    (realname : Option String) (ipfx : String) :
    List ParamSpec → Except String (List String × List String)
  | [] => .ok ([], [])
  | p :: rest =>
      match rrHandleOutputArgument tbl fname realname ipfx p with
      | .error e => .error e
      | .ok (s, dg) =>
        match rrOutconvList tbl fname realname ipfx rest with
        | .error e => .error e
        | .ok (l, dgs) => .ok ((if s = "" then l else s :: l), dg ++ dgs)

/-- r.py lines 196-212: the return section.  With zero output parameters
the return type's OUTCONV rule is indexed with "OUT" (`rt["OUTCONV"]["OUT"]`:
a flat rule raises TypeError, a mode-keyed rule without OUT raises
KeyError, an absent rule contributes the empty string) and `%I%` is
replaced by `res`; with one or more output parameters the joined
entries are emitted as is. -/
def rrRetSection (tbl : TypeTable) (returnType : String)
    (outs : List String) (rp : List String) : Except String String :=
  match rp with
  | [] =>
      match getTypeDesc tbl returnType with
      | .error e => .error e
      | .ok rt =>
        match List.lookup "OUTCONV" rt.rules with
        | some (.byMode m) =>
            match List.lookup "OUT" m with
            | some s =>
                .ok (String.intercalate "\n" outs ++ "\n"
                  ++ strReplace ("  " ++ s) "%I%" "res" ++ "\n")
            | none => .error "KeyError: OUT"
        | some (.flat _) => .error "TypeError: string indices must be integers"
        | none => .ok (String.intercalate "\n" outs ++ "\n" ++ "" ++ "\n")
  | _ :: _ => .ok (String.intercalate "\n" outs ++ "\n")

/-- r.py lines 215-223: lazy conversion of the legacy `*-R` keys into an
`R` namespace stored on the descriptor (`spec._obj["R"] = r_namespace`)
when no `R` key exists and at least one legacy key does.  This is the
only place the generator writes to its inputs. -/
def rrConvertLegacy (d : FunctionDescriptor) : FunctionDescriptor :=
  match d.obj.rNs with
  | some _ => d
  | none =>
      let rns : RNamespace := ⟨d.obj.gattrR, d.obj.gattrParamR, d.obj.classR, d.obj.ppR⟩
      if rns = emptyNS then d
      else
        ⟨d.name, d.return_type, d.params, d.is_internal, d.renameR,
         ⟨some rns, d.obj.gattrR, d.obj.gattrParamR, d.obj.classR, d.obj.ppR⟩⟩

/-- r.py lines 228-246: GATTR emission; a string value is parsed as
`name IS value` items separated by commas (a missing ` IS ` raises
ValueError on tuple unpacking), a dict value is used as is. -/
def rrGattrText (g : Option GattrVal) : Except String String :=
  match g with
  | none => .ok ""
  | some gv =>
    let entriesE : Except String (List (String × String)) :=
      match gv with
      | .dict entries =>
          .ok (entries.foldl (fun acc kv => dictInsert acc kv.1 kv.2) [])
      | .str s =>
          (strSplit s ",").foldlM
            (fun acc item =>
              match splitFirst item " IS " with
              | some (n, v) => .ok (dictInsert acc (strTrim n) (strTrim v))
              | none => .error "ValueError: not enough values to unpack")
            []
    match entriesE with
    | .error e => .error e
    | .ok gd =>
      if gd = [] then .ok ""
      else
        .ok (String.intercalate "\n"
              (gd.map fun kv =>
                "  res <- set.graph.attribute(res, '" ++ kv.1 ++ "', '" ++ kv.2 ++ "')")
             ++ "\n")

/-- r.py lines 249-264: the post-result tail (GATTR, GATTR-PARAM, CLASS,
PP, closing `res`). -/
def rrTail (rs : RNamespace) : Except String String :=
  match rrGattrText rs.gattr with
  | .error e => .error e
  | .ok gattrText =>
    let gparamText :=
      match rs.gattrParam with
      | none => ""
      | some s =>
          String.join
            (((strSplit s ",").map (fun p => strReplace (strTrim p) "_" ".")).map
              (fun p => "  res <- set.graph.attribute(res, '" ++ p ++ "', " ++ p ++ ")\n"))
    let clsText :=
      match rs.cls with
      | none => ""
      | some c => "  class(res) <- \"" ++ c ++ "\"\n"
    let ppText :=
      match rs.pp with
      | none => ""
      | some f => "  res <- " ++ f ++ "(res)\n"
    .ok (gattrText ++ gparamText ++ clsText ++ ppText ++ "  res\n\x7d\n\n")

/-- The text and diagnostics of RRCodeGenerator.generate_function before
the function-level tail; depends only on the table, the registry name
of the function and the listed descriptor fields (r.py lines 21-212). -/
def rrBodyCore (tbl : TypeTable) (function : String) (params : List ParamSpec)
    (returnType : String) (isInternal : Bool) (rname : String) :
    Except String (String × List String) :=
  let tdiags := rrCheckTypes tbl params
  match rrHeadList tbl rname params with
  | .error e => .error e
  | .ok (head, hdgs) =>
    match rrInconvList tbl rname params with
    | .error e => .error e
    | .ok (inconv, idgs) =>
      match rrCallLoop tbl rname params with
      | .error e => .error e
      | .ok (parts, nameVar) =>
        let rp := outputNames params
        match
          (if rp.length ≤ 1 then rrOutconvList tbl nameVar (some "res") "" params
           else rrOutconvList tbl nameVar none "res$" params) with
        | .error e => .error e
        | .ok (outs, odgs) =>
          match rrRetSection tbl returnType outs rp with
          | .error e => .error e
          | .ok ret =>
            let text :=
              (if isInternal then "" else "#' @export\n")
              ++ rname ++ " <- function(" ++ String.intercalate ", " head ++ ") \x7b\n"
              ++ "  # Argument checks\n" ++ String.intercalate "\n" inconv ++ "\n\n"
              ++ "  on.exit( .Call(C_R_igraph_finalizer) )\n"
              ++ "  # Function call\n"
              ++ "  res <- .Call(C_R_" ++ function ++ ", "
              ++ String.intercalate ", " parts ++ ")\n"
              ++ ret
            .ok (text, tdiags ++ hdgs ++ idgs ++ odgs)

/-- The result of one RR generation run: the emitted text, the
diagnostics logged, and the descriptor as left behind (r.py mutates
`spec._obj` in place; the embedding returns the updated descriptor). -/
structure RROut where
  text : String
  diags : List String
  specOut : FunctionDescriptor
deriving DecidableEq, Repr

/-- RRCodeGenerator.generate_function, r.py lines 21-264. -/
def rrGenerateFunction (tbl : TypeTable) (function : String)
    (d : FunctionDescriptor) : Except String RROut :=
  match rrBodyCore tbl function d.params d.return_type d.is_internal (getNameR d) with
  | .error e => .error e
  | .ok (pre, dgs) =>
    match rrTail ((rrConvertLegacy d).obj.rNs.getD emptyNS) with
    | .error e => .error e
    | .ok tail => .ok ⟨pre ++ tail, dgs, rrConvertLegacy d⟩

/-! ## RCCodeGenerator (C shim dialect), r.py lines 267-495 -/

/-- Modelled from the spec (section 7, strict variant used by the C
dialect: `check_types_of_function(function, errors="error")`): raise on
the first parameter whose type has no table entry. -/
def rcCheckTypes (tbl : TypeTable) : List ParamSpec → Except String Unit
  | [] => .ok ()
  | p :: rest =>
      match List.lookup p.type tbl with
      | some _ => rcCheckTypes tbl rest
      | none => .error ("Unknown type " ++ p.type)

/-- r.py lines 318-326, chunk_header's `do_par`: a truthy HEADER rule is
used with `%I%` substituted (a non-empty dict HEADER would raise
AttributeError on `dict.replace`), a falsy one suppresses the
parameter, an absent one contributes the bare parameter name. -/
def rcHeaderEntry (tbl : TypeTable) (p : ParamSpec) : Except String String :=
  match getTypeDesc tbl p.type with
  | .error e => .error e
  | .ok t =>
    match List.lookup "HEADER" t.rules with
    | some (.flat s) =>
        if s = "" then .ok "" else .ok (strReplace s "%I%" p.name)
    | some (.byMode m) =>
        if m = [] then .ok ""
        else .error "AttributeError: dict object has no attribute replace"
    | none => .ok p.name

/-- r.py line 328-329: header entries of the input parameters with empty
entries dropped (before the `"SEXP " ++ ·` decoration). -/
def rcHeaderArgs (tbl : TypeTable) : List ParamSpec → Except String (List String)
  | [] => .ok []
  | p :: rest =>
      if p.is_input then
        match rcHeaderEntry tbl p with
        | .error e => .error e
        | .ok s =>
          match rcHeaderArgs tbl rest with
          | .error e => .error e
          | .ok l => .ok (if s = "" then l else s :: l)
      else rcHeaderArgs tbl rest

/-- r.py lines 311-330, chunk_header. -/
def rcChunkHeader (tbl : TypeTable) (desc : FunctionDescriptor) : Except String String :=
  match rcHeaderArgs tbl desc.params with
  | .error e => .error e
  | .ok l =>
    .ok ("SEXP R_" ++ desc.name ++ "("
      ++ String.intercalate ", " (l.map (fun n => "SEXP " ++ n)) ++ ")")

/-- r.py lines 343-345, chunk_declaration's `do_par`: one C declaration
per parameter for the `c_`-prefixed variable. -/
def rcDeclEntry (tbl : TypeTable) (p : ParamSpec) : Except String String :=
  match getTypeDesc tbl p.type with
  | .error e => .error e
  | .ok t => .ok (t.declare_c_variable ("c_" ++ p.name))

def rcDeclEntries (tbl : TypeTable) : List ParamSpec → Except String (List String)
  | [] => .ok []
  | p :: rest =>
      match rcDeclEntry tbl p with
      | .error e => .error e
      | .ok s =>
        match rcDeclEntries tbl rest with
        | .error e => .error e
        | .ok l => .ok (s :: l)

/-- r.py lines 332-363, chunk_declaration: C declarations for every
parameter, SEXP variables for the OUT parameters, a `c_result`
declaration when there are no output parameters, and `SEXP result;`
(plus `names` when there are two or more output parameters). -/
def rcChunkDeclaration (tbl : TypeTable) (desc : FunctionDescriptor) :
    Except String String :=
  match rcDeclEntries tbl desc.params with
  | .error e => .error e
  | .ok inout =>
    let outs := desc.params.filterMap
      (fun p => if p.mode = ParamMode.OUT then some ("SEXP " ++ p.name ++ ";") else none)
    let rp := outputNames desc.params
    match getTypeDesc tbl desc.return_type with
    | .error e => .error e
    | .ok rt =>
      let retdecl := if rp = [] then rt.declare_c_variable "c_result" else ""
      let res :=
        if rp.length ≤ 1 then
          String.intercalate "\n" (inout ++ outs ++ [retdecl] ++ ["SEXP result;"])
        else
          String.intercalate "\n" (inout ++ outs ++ [retdecl] ++ ["SEXP result, names;"])
      .ok (indentTwo res)

/-- r.py lines 373-385, chunk_inconv's `do_par`: only a mode-keyed INCONV
containing the parameter's mode contributes (a flat INCONV containing
the mode string as substring would be indexed by a str: TypeError; one
not containing it contributes nothing); then `%C<k>%` dependencies,
`%C%` and `%I%` are substituted. -/
def rcInconvEntry (tbl : TypeTable) (p : ParamSpec) : Except String String :=
  match getTypeDesc tbl p.type with
  | .error e => .error e
  | .ok t =>
    match modeKeyedSelect (List.lookup "INCONV" t.rules) p.mode.modeStr with
    | .error e => .error e
    | .ok i0 =>
        .ok (strReplace (strReplace (substDepsC i0 p.dependencies)
              "%C%" ("c_" ++ p.name)) "%I%" p.name)

def rcInconvEntries (tbl : TypeTable) : List ParamSpec → Except String (List String)
  | [] => .ok []
  | p :: rest =>
      match rcInconvEntry tbl p with
      | .error e => .error e
      | .ok s =>
        match rcInconvEntries tbl rest with
        | .error e => .error e
        | .ok l => .ok (if s = "" then l else s :: l)

/-- r.py lines 365-390, chunk_inconv. -/
def rcChunkInconv (tbl : TypeTable) (desc : FunctionDescriptor) : Except String String :=
  match rcInconvEntries tbl desc.params with
  | .error e => .error e
  | .ok l => .ok (String.intercalate "\n" l)

/-- r.py lines 400-410, the body of chunk_call's loop for one parameter:
the CALL rule (default `c_<name>`); for a dict rule the entry for the
parameter's mode (default empty); a falsy resolved value contributes
nothing, otherwise `%C%` and `%I%` are substituted. -/
def rcCallResolve (rule : Option TypeRule) (p : ParamSpec) : String :=
  match rule with
  | none => "c_" ++ p.name
  | some (.byMode m) => (List.lookup p.mode.modeStr m).getD ""
  | some (.flat s) => s

def rcCallToken (tbl : TypeTable) (p : ParamSpec) : Except String (Option String) :=
  match getTypeDesc tbl p.type with
  | .error e => .error e
  | .ok t =>
    if rcCallResolve (List.lookup "CALL" t.rules) p = "" then .ok none
    else
      .ok (some (strReplace (strReplace (rcCallResolve (List.lookup "CALL" t.rules) p)
        "%C%" ("c_" ++ p.name)) "%I%" p.name))

def rcCallTokens (tbl : TypeTable) : List ParamSpec → Except String (List (Option String))
  | [] => .ok []
  | p :: rest =>
      match rcCallToken tbl p with
      | .error e => .error e
      | .ok tok =>
        match rcCallTokens tbl rest with
        | .error e => .error e
        | .ok l => .ok (tok :: l)

/-- The `calls` list built by chunk_call's loop (tokens of the parameters
that contribute, in parameter order). -/
def rcCallArgs (tbl : TypeTable) (ps : List ParamSpec) : Except String (List String) :=
  match rcCallTokens tbl ps with
  | .error e => .error e
  | .ok toks => .ok (toks.filterMap id)

/-- r.py lines 392-417, chunk_call: every parameter is visited
independently of its mode; with no output parameters the call is
assigned to `c_result` (note the doubled indentation the source
produces there). -/
def rcChunkCall (tbl : TypeTable) (desc : FunctionDescriptor) : Except String String :=
  match rcCallArgs tbl desc.params with
  | .error e => .error e
  | .ok calls =>
    let rp := outputNames desc.params
    let res := "  " ++ desc.name ++ "(" ++ String.intercalate ", " calls ++ ");\n"
    .ok (if rp = [] then "  c_result=" ++ res else res)

/-- r.py lines 443-455, chunk_outconv's `do_par`: same selection shape as
`rcInconvEntry` but for OUTCONV. -/
def rcOutconvEntry (tbl : TypeTable) (p : ParamSpec) : Except String String :=
  match getTypeDesc tbl p.type with
  | .error e => .error e
  | .ok t =>
    match modeKeyedSelect (List.lookup "OUTCONV" t.rules) p.mode.modeStr with
    | .error e => .error e
    | .ok o0 =>
        .ok (strReplace (strReplace (substDepsC o0 p.dependencies)
              "%C%" ("c_" ++ p.name)) "%I%" p.name)

def rcOutconvEntries (tbl : TypeTable) : List ParamSpec → Except String (List String)
  | [] => .ok []
  | p :: rest =>
      match rcOutconvEntry tbl p with
      | .error e => .error e
      | .ok s =>
        match rcOutconvEntries tbl rest with
        | .error e => .error e
        | .ok l => .ok (if s = "" then l else s :: l)

/-- r.py lines 461-469 for zero output parameters: index the return
type's OUTCONV with "OUT" (`rt["OUTCONV"]["OUT"]`: flat rule raises
TypeError, mode-keyed rule without OUT raises KeyError, absent rule
contributes the empty string), then substitute `%C%` with `c_result`
and `%I%` with `result`. -/
def rcRetconv0 (tbl : TypeTable) (returnType : String) : Except String String :=
  match getTypeDesc tbl returnType with
  | .error e => .error e
  | .ok rt =>
    match List.lookup "OUTCONV" rt.rules with
    | some (.byMode m) =>
        match List.lookup "OUT" m with
        | some s =>
            .ok (strReplace (strReplace ("  " ++ s) "%C%" "c_result") "%I%" "result")
        | none => .error "KeyError: OUT"
    | some (.flat _) => .error "TypeError: string indices must be integers"
    | none => .ok ""

/-- r.py lines 476-479: the `SET_VECTOR_ELT` lines, one per output
parameter, indexed by `enumerate(retpars)` (modelled as an explicit
counter starting at `i`). -/
def rcSetsLinesFrom (i : Nat) : List String → List String
  | [] => []
  | n :: rest =>
      ("  SET_VECTOR_ELT(result, " ++ toString i ++ ", " ++ n ++ ");")
        :: rcSetsLinesFrom (i + 1) rest

def rcSetsLines (rp : List String) : List String :=
  rcSetsLinesFrom 0 rp

/-- r.py lines 480-483: the `SET_STRING_ELT` name lines, one per output
parameter, indexed by `enumerate(retpars)`. -/
def rcNamesLinesFrom (i : Nat) : List String → List String
  | [] => []
  | n :: rest =>
      ("  SET_STRING_ELT(names, " ++ toString i
        ++ ", CREATE_STRING_VECTOR(\"" ++ n ++ "\"));")
        :: rcNamesLinesFrom (i + 1) rest

def rcNamesLines (rp : List String) : List String :=
  rcNamesLinesFrom 0 rp

/-- r.py lines 419-495, chunk_outconv: per-parameter output conversions
followed by the return-shape selection on the number of output
parameters (0: the converted return value; 1: `result=<param>;`;
2 or more: a NEW_LIST aggregate with a parallel NEW_CHARACTER name
vector). -/
def rcChunkOutconv (tbl : TypeTable) (desc : FunctionDescriptor) : Except String String :=
  match rcOutconvEntries tbl desc.params with
  | .error e => .error e
  | .ok outs =>
    let rp := outputNames desc.params
    match rp with
    | [] =>
        match rcRetconv0 tbl desc.return_type with
        | .error e => .error e
        | .ok rc => .ok (String.intercalate "\n" outs ++ "\n" ++ rc)
    | [n] => .ok (String.intercalate "\n" outs ++ "\n" ++ ("  result=" ++ n ++ ";"))
    | _ :: _ :: _ =>
        .ok (String.intercalate "\n"
          (["  PROTECT(result=NEW_LIST(" ++ toString rp.length ++ "));",
            "  PROTECT(names=NEW_CHARACTER(" ++ toString rp.length ++ "));"]
           ++ outs ++ rcSetsLines rp ++ rcNamesLines rp
           ++ ["  SET_NAMES(result, names);",
               "  UNPROTECT(" ++ toString (rp.length + 1) ++ ");"]))

/-- RCCodeGenerator.generate_function, r.py lines 268-309: strict type
check, the five chunks, and the fixed emission template. -/
def rcGenerateFunction (tbl : TypeTable) (function : String)
    (desc : FunctionDescriptor) : Except String String :=
  match rcCheckTypes tbl desc.params with
  | .error e => .error e
  | .ok _ =>
    match rcChunkHeader tbl desc with
    | .error e => .error e
    | .ok header =>
      match rcChunkDeclaration tbl desc with
      | .error e => .error e
      | .ok decl =>
        match rcChunkInconv tbl desc with
        | .error e => .error e
        | .ok inconv =>
          match rcChunkCall tbl desc with
          | .error e => .error e
          | .ok call =>
            match rcChunkOutconv tbl desc with
            | .error e => .error e
            | .ok outconv =>
              .ok ("\n/*-------------------------------------------/\n/ "
                ++ pad42 function ++ " /\n/-------------------------------------------*/\n"
                ++ header ++ " \x7b\n"
                ++ "                                        /* Declarations */\n"
                ++ decl ++ "\n"
                ++ "                                        /* Convert input */\n"
                ++ inconv ++ "\n"
                ++ "                                        /* Call igraph */\n"
                ++ call ++ "\n"
                ++ "                                        /* Convert output */\n"
                ++ outconv ++ "\n\n  UNPROTECT(1);\n  return(result);\n\x7d\n")

/-! ## RInitCodeGenerator, r.py lines 498-534 -/

/-- r.py lines 499-509, `_count_arguments`: count input and output
parameters, skipping parameters of type DEPRECATED or NULL. -/
def countArguments (desc : FunctionDescriptor) : Nat × Nat :=
  desc.params.foldl
    (fun acc p =>
      if p.type = "DEPRECATED" || p.type = "NULL" then acc
      else
        ((if p.is_input then acc.1 + 1 else acc.1),
         (if p.is_output then acc.2 + 1 else acc.2)))
    (0, 0)

/-- r.py lines 515-523, `generate_declaration`: the forward declaration
whose arity is the input-argument count. -/
def rinitDeclaration (desc : FunctionDescriptor) : String :=
  let numRArgs := (countArguments desc).1
  "extern SEXP R_" ++ desc.name ++ "("
    ++ String.intercalate ", " (List.replicate numRArgs "SEXP") ++ ");\n"

/-- r.py lines 525-531, `generate_function`: the registration table entry
carrying the same input-argument count. -/
def rinitEntry (desc : FunctionDescriptor) : String :=
  let numRArgs := padLeft2 (countArguments desc).1
  let padding := String.mk (List.replicate (50 - desc.name.length) ' ')
  "    \x7b\"R_" ++ desc.name ++ "\"," ++ padding
    ++ "(DL_FUNC) &R_" ++ desc.name ++ "," ++ padding ++ numRArgs ++ "\x7d,\n"

/-! ## Lemmas about the string helpers -/

lemma listStartsWith_refl (l : List Char) : listStartsWith l l = true := by
  induction l with
  | nil => rfl
  | cons c cs ih => simp [listStartsWith, ih]

lemma listReplaceGo_nil (p : Char) (ps repl : List Char) (fuel : Nat) :
    listReplaceGo p ps repl fuel [] = [] := by
  cases fuel <;> rfl

lemma listReplaceGo_self (p : Char) (ps repl : List Char) (fuel : Nat) :
    listReplaceGo p ps repl (fuel + 1) (p :: ps) = repl := by
  simp [listReplaceGo, listStartsWith_refl, List.drop_length, listReplaceGo_nil]

lemma strReplace_self (pat repl : String) (h : pat ≠ "") :
    strReplace pat pat repl = repl := by
  cases pat with
  | mk l =>
    cases l with
    | nil => exact absurd rfl h
    | cons p ps =>
      show strReplace ⟨p :: ps⟩ ⟨p :: ps⟩ repl = repl
      unfold strReplace
      simp only [List.length_cons]
      rw [listReplaceGo_self]

lemma listReplaceGo_not_contains (p : Char) (ps repl : List Char) :
    ∀ (l : List Char) (fuel : Nat), listContainsPat (p :: ps) l = false →
      listReplaceGo p ps repl fuel l = l := by
  intro l
  induction l with
  | nil => intro fuel _; exact listReplaceGo_nil p ps repl fuel
  | cons c cs ih =>
      intro fuel h
      cases fuel with
      | zero => rfl
      | succ f =>
          rw [listContainsPat] at h
          simp only [Bool.or_eq_false_iff] at h
          simp [listReplaceGo, h.1, ih f h.2]

lemma strReplace_not_contains (s pat repl : String) (h : strContainsB s pat = false) :
    strReplace s pat repl = s := by
  cases pat with
  | mk pl =>
    cases pl with
    | nil => rfl
    | cons p ps =>
      cases s with
      | mk sl =>
        show strReplace ⟨sl⟩ ⟨p :: ps⟩ repl = ⟨sl⟩
        unfold strReplace
        simp only []
        rw [listReplaceGo_not_contains p ps repl.data sl _ h]

lemma listContainsPat_pct_free (ps l : List Char) (h : '%' ∉ l) :
    listContainsPat ('%' :: ps) l = false := by
  induction l with
  | nil => rfl
  | cons c cs ih =>
      rw [List.mem_cons, not_or] at h
      have hc : ('%' : Char) ≠ c := h.1
      simp [listContainsPat, listStartsWith, hc, ih h.2]

lemma strReplace_pct_free (s pat repl : String)
    (hpat : pat.data.head? = some '%') (h : '%' ∉ s.data) :
    strReplace s pat repl = s := by
  apply strReplace_not_contains
  unfold strContainsB
  cases hd : pat.data with
  | nil => rw [hd] at hpat; exact absurd hpat (by simp)
  | cons p ps =>
      rw [hd] at hpat
      simp only [List.head?] at hpat
      have hp : p = '%' := by injection hpat
      subst hp
      exact listContainsPat_pct_free ps s.data h

/-! ## Lemmas about the generators -/

lemma rrConvertLegacy_params (d : FunctionDescriptor) :
    (rrConvertLegacy d).params = d.params := by
  unfold rrConvertLegacy
  cases d.obj.rNs <;> simp
  split <;> rfl

lemma rrConvertLegacy_return_type (d : FunctionDescriptor) :
    (rrConvertLegacy d).return_type = d.return_type := by
  unfold rrConvertLegacy
  cases d.obj.rNs <;> simp
  split <;> rfl

lemma rrConvertLegacy_is_internal (d : FunctionDescriptor) :
    (rrConvertLegacy d).is_internal = d.is_internal := by
  unfold rrConvertLegacy
  cases d.obj.rNs <;> simp
  split <;> rfl

lemma rrConvertLegacy_renameR (d : FunctionDescriptor) :
    (rrConvertLegacy d).renameR = d.renameR := by
  unfold rrConvertLegacy
  cases d.obj.rNs <;> simp
  split <;> rfl

lemma rrConvertLegacy_name (d : FunctionDescriptor) :
    (rrConvertLegacy d).name = d.name := by
  unfold rrConvertLegacy
  cases d.obj.rNs <;> simp
  split <;> rfl

lemma getNameR_convertLegacy (d : FunctionDescriptor) :
    getNameR (rrConvertLegacy d) = getNameR d := by
  unfold getNameR
  rw [rrConvertLegacy_renameR, rrConvertLegacy_name]

lemma rrConvertLegacy_of_some (X : FunctionDescriptor) (r : RNamespace)
    (h : X.obj.rNs = some r) : rrConvertLegacy X = X := by
  unfold rrConvertLegacy; rw [h]

lemma rrConvertLegacy_idem (d : FunctionDescriptor) :
    rrConvertLegacy (rrConvertLegacy d) = rrConvertLegacy d := by
  have key : rrConvertLegacy d = d ∨ ∃ r, (rrConvertLegacy d).obj.rNs = some r := by
    cases hr : d.obj.rNs with
    | some r => exact Or.inl (rrConvertLegacy_of_some d r hr)
    | none =>
        unfold rrConvertLegacy
        simp only [hr]
        by_cases hh :
          (⟨d.obj.gattrR, d.obj.gattrParamR, d.obj.classR, d.obj.ppR⟩ : RNamespace) = emptyNS
        · exact Or.inl (if_pos hh)
        · simp only [if_neg hh]
          exact Or.inr ⟨_, rfl⟩
  rcases key with h | ⟨r, h⟩
  · rw [h]; exact h
  · exact rrConvertLegacy_of_some _ r h

/-- The descriptor left behind by a successful RR generation run is
exactly the legacy-converted input descriptor. -/
lemma rrGenerate_specOut (tbl : TypeTable) (fn : String) (d : FunctionDescriptor)
    (out : RROut) (h : rrGenerateFunction tbl fn d = .ok out) :
    out.specOut = rrConvertLegacy d := by
  unfold rrGenerateFunction at h
  split at h
  · exact absurd h (by simp)
  · split at h
    · exact absurd h (by simp)
    · injection h with h'
      rw [← h']

lemma rcSetsLinesFrom_length (i : Nat) (rp : List String) :
    (rcSetsLinesFrom i rp).length = rp.length := by
  induction rp generalizing i with
  | nil => rfl
  | cons n rest ih => simp [rcSetsLinesFrom, ih]

lemma rcNamesLinesFrom_length (i : Nat) (rp : List String) :
    (rcNamesLinesFrom i rp).length = rp.length := by
  induction rp generalizing i with
  | nil => rfl
  | cons n rest ih => simp [rcNamesLinesFrom, ih]

lemma rcSetsLinesFrom_get (rp : List String) :
    ∀ (i j : Nat),
      (rcSetsLinesFrom i rp).get? j
        = (rp.get? j).map
            (fun n => "  SET_VECTOR_ELT(result, " ++ toString (i + j) ++ ", " ++ n ++ ");") := by
  induction rp with
  | nil => intro i j; simp [rcSetsLinesFrom]
  | cons n rest ih =>
      intro i j
      cases j with
      | zero => simp [rcSetsLinesFrom]
      | succ j' =>
          show (rcSetsLinesFrom (i + 1) rest).get? j' = _
          rw [ih (i + 1) j']
          rw [show (i + 1) + j' = i + (j' + 1) by omega]
          rfl

lemma rcNamesLinesFrom_get (rp : List String) :
    ∀ (i j : Nat),
      (rcNamesLinesFrom i rp).get? j
        = (rp.get? j).map
            (fun n => "  SET_STRING_ELT(names, " ++ toString (i + j)
              ++ ", CREATE_STRING_VECTOR(\"" ++ n ++ "\"));") := by
  induction rp with
  | nil => intro i j; simp [rcNamesLinesFrom]
  | cons n rest ih =>
      intro i j
      cases j with
      | zero => simp [rcNamesLinesFrom]
      | succ j' =>
          show (rcNamesLinesFrom (i + 1) rest).get? j' = _
          rw [ih (i + 1) j']
          rw [show (i + 1) + j' = i + (j' + 1) by omega]
          rfl

lemma rcCallTokens_length (tbl : TypeTable) (ps : List ParamSpec) (toks : List (Option String))
    (h : rcCallTokens tbl ps = .ok toks) : toks.length = ps.length := by
  induction ps generalizing toks with
  | nil =>
      unfold rcCallTokens at h
      injection h with h'
      rw [← h']
      rfl
  | cons p rest ih =>
      unfold rcCallTokens at h
      split at h
      · exact absurd h (by simp)
      · split at h
        · exact absurd h (by simp)
        · injection h with h'
          rw [← h']
          simp [ih _ (by assumption)]

/-- The predicate RInit counts input arguments with: not DEPRECATED/NULL
and input mode. -/
def rinitCountsP (p : ParamSpec) : Bool :=
  !(p.type = "DEPRECATED" || p.type = "NULL") && p.is_input

lemma countArguments_foldl (ps : List ParamSpec) :
    ∀ a b : Nat,
      (List.foldl
        (fun acc p =>
          if p.type = "DEPRECATED" || p.type = "NULL" then acc
          else
            ((if p.is_input then acc.1 + 1 else acc.1),
             (if p.is_output then acc.2 + 1 else acc.2)))
        (a, b) ps).1
      = a + (ps.filter rinitCountsP).length := by
  induction ps with
  | nil => intro a b; simp
  | cons p rest ih =>
      intro a b
      rw [List.foldl_cons]
      by_cases hskip : (p.type = "DEPRECATED" || p.type = "NULL") = true
      · have hp : rinitCountsP p = false := by simp [rinitCountsP, hskip]
        rw [if_pos hskip, ih]
        simp [List.filter_cons, hp]
      · have hskip' := eq_false_of_ne_true hskip
        rw [if_neg hskip, ih]
        by_cases hin : p.is_input = true
        · have hp : rinitCountsP p = true := by simp [rinitCountsP, hskip', hin]
          simp [List.filter_cons, hp, hin]
          omega
        · have hin' := eq_false_of_ne_true hin
          have hp : rinitCountsP p = false := by simp [rinitCountsP, hin']
          simp [List.filter_cons, hp, hin']

lemma countArguments_fst (desc : FunctionDescriptor) :
    (countArguments desc).1 = (desc.params.filter rinitCountsP).length := by
  unfold countArguments
  rw [countArguments_foldl desc.params 0 0]
  omega

lemma rcHeaderArgs_length (tbl : TypeTable) (ps : List ParamSpec)
    (h : ∀ p ∈ ps, p.is_input = true →
      ∃ s, rcHeaderEntry tbl p = .ok s ∧ s ≠ "" ∧ p.type ≠ "DEPRECATED" ∧ p.type ≠ "NULL") :
    ∃ l, rcHeaderArgs tbl ps = .ok l ∧ l.length = (ps.filter rinitCountsP).length := by
  induction ps with
  | nil => exact ⟨[], rfl, rfl⟩
  | cons p rest ih =>
      obtain ⟨l, hl, hlen⟩ := ih (fun q hq => h q (List.mem_cons_of_mem p hq))
      by_cases hin : p.is_input = true
      · obtain ⟨s, hs, hne, ht1, ht2⟩ := h p (List.mem_cons_self p rest) hin
        have hp : rinitCountsP p = true := by
          simp [rinitCountsP, hin, ht1, ht2]
        refine ⟨s :: l, ?_, ?_⟩
        · unfold rcHeaderArgs
          rw [if_pos hin]
          simp only [hs, hl]
          rw [if_neg hne]
        · simp [List.filter_cons, hp, hlen]
      · have hin' := eq_false_of_ne_true hin
        have hp : rinitCountsP p = false := by simp [rinitCountsP, hin']
        refine ⟨l, ?_, ?_⟩
        · unfold rcHeaderArgs
          simp only [hin', Bool.false_eq_true, if_false]
          exact hl
        · simp [List.filter_cons, hp, hlen]

/-! ## Claim C1 -/

/-- Claim C1 (counterexample): in the C shim dialect the input-conversion
emitter leaves the residual dependency placeholder `%C1%` of a
parameter declared with zero dependencies verbatim in the emitted chunk
and reports nothing (the RC emitters produce no diagnostics at all),
refuting that every phase emitter of every dialect reports a
missing-dependency diagnostic and never silently emits the literal
placeholder text. -/
theorem c1_counterexample :
    rcChunkInconv [("tA", ⟨[("INCONV", .byMode [("IN", "foo(%C1%)")])], [], "int"⟩)]
        ⟨"f", "tA", [⟨"p", "tA", .IN, none, []⟩], false, none, ⟨none, none, none, none, none⟩⟩
      = .ok "  foo(%C1%)"
    ∧ strContainsB "  foo(%C1%)" "%C1%" = true := by
  exact ⟨by decide, by decide⟩

/-- Claim C1 (amended): only the R dialect's phase emitters detect
residual `%I[0-9]*%` placeholders.  Each of the header,
input-conversion and output-conversion handlers logs the
missing-dependency message naming the type, the parameter and the
function-name argument exactly when the resolved fragment retains a
residual placeholder; the header and input-conversion fragments are
still emitted with the placeholder text, while the output-conversion
fragment has the numbered placeholders stripped before emission.  The
C shim dialect performs no residual-placeholder detection and silently
emits the literal text (see the counterexample), and the `%C<k>%`
family is never checked in either dialect. -/
theorem c1_amended (tbl : TypeTable) (rname : String) (p : ParamSpec) :
    (∀ s dgs, rrHandleInputArgument tbl rname p = .ok (s, dgs) →
        dgs = rrResidualDiag "HEADER" p.type p.name rname s)
  ∧ (∀ s dgs, rrHandleArgumentCheck tbl rname p = .ok (s, dgs) →
        dgs = rrResidualDiag "IN" p.type p.name rname s)
  ∧ (∀ rn ipfx s dgs, rrHandleOutputArgument tbl rname rn ipfx p = .ok (s, dgs) →
        ∃ u, rrOutconvFrag tbl rn ipfx p = .ok u ∧ s = stripNumI u
          ∧ dgs = rrResidualDiag "OUT" p.type p.name rname u) := by
  refine ⟨?_, ?_, ?_⟩
  · intro s dgs h
    unfold rrHandleInputArgument at h
    split at h
    · exact absurd h (by simp)
    · simp only [Except.ok.injEq, Prod.mk.injEq] at h
      obtain ⟨h1, h2⟩ := h
      rw [← h1, ← h2]
  · intro s dgs h
    unfold rrHandleArgumentCheck at h
    split at h
    · exact absurd h (by simp)
    · simp only [Except.ok.injEq, Prod.mk.injEq] at h
      obtain ⟨h1, h2⟩ := h
      rw [← h1, ← h2]
  · intro rn ipfx s dgs h
    unfold rrHandleOutputArgument at h
    split at h
    · exact absurd h (by simp)
    · rename_i u heq
      simp only [Except.ok.injEq, Prod.mk.injEq] at h
      obtain ⟨h1, h2⟩ := h
      exact ⟨u, heq, h1.symm, h2.symm⟩

/-- Claim C1 (witness): the amended theorem evaluated on a concrete
input-conversion template `x %I1% y` of a dependency-free parameter:
the logged diagnostics are exactly the residual-placeholder message. -/
theorem c1_witness :
    ["Missing IN dependency for tW p in function f"]
      = rrResidualDiag "IN" "tW" "p" "f" "  x %I1% y" :=
  (c1_amended [("tW", ⟨[("INCONV", .byMode [("IN", "x %I1% y")])], [], "int"⟩)] "f"
      ⟨"p", "tW", .IN, none, []⟩).2.1 "  x %I1% y"
    ["Missing IN dependency for tW p in function f"] (by decide)

/-! ## Claim C2 -/

/-- Claim C2 (counterexample): generating a function whose descriptor
carries the legacy key `CLASS-R` but no `R` namespace mutates the
descriptor: `spec._obj["R"]` is written (r.py line 223), so the
descriptor after the call differs from the descriptor before it. -/
theorem c2_counterexample :
    (rrGenerateFunction
        [("integer", ⟨[("OUTCONV", .byMode [("OUT", "%I% <- as.numeric(%I%)")])], [], "int"⟩)]
        "g2" ⟨"g2", "integer", [], false, none, ⟨none, none, none, some "igraph", none⟩⟩).map
      RROut.specOut
    = .ok ⟨"g2", "integer", [], false, none,
        ⟨some ⟨none, none, some "igraph", none⟩, none, none, some "igraph", none⟩⟩
    ∧ (⟨"g2", "integer", [], false, none,
        ⟨some ⟨none, none, some "igraph", none⟩, none, none, some "igraph", none⟩⟩
          : FunctionDescriptor)
      ≠ ⟨"g2", "integer", [], false, none, ⟨none, none, none, some "igraph", none⟩⟩ := by
  exact ⟨by decide, by decide⟩

/-- Claim C2 (amended): the type-rule table is never written by either
generator and the C dialect's generate_function mutates nothing; the R
dialect's generate_function leaves every descriptor field except the
`_obj` "R" namespace unchanged, and leaves the descriptor entirely
unchanged whenever an "R" namespace is already present or no legacy
`*-R` key is present; the only mutation is storing the converted
legacy namespace under "R". -/
theorem c2_amended (tbl : TypeTable) (fn : String) (d : FunctionDescriptor) (out : RROut)
    (h : rrGenerateFunction tbl fn d = .ok out) :
    out.specOut.name = d.name ∧ out.specOut.return_type = d.return_type
  ∧ out.specOut.params = d.params ∧ out.specOut.is_internal = d.is_internal
  ∧ out.specOut.renameR = d.renameR
  ∧ (d.obj.rNs.isSome = true → out.specOut = d)
  ∧ (d.obj.gattrR = none ∧ d.obj.gattrParamR = none ∧ d.obj.classR = none ∧ d.obj.ppR = none
      → out.specOut = d) := by
  have hs := rrGenerate_specOut tbl fn d out h
  rw [hs]
  refine ⟨rrConvertLegacy_name d, rrConvertLegacy_return_type d, rrConvertLegacy_params d,
    rrConvertLegacy_is_internal d, rrConvertLegacy_renameR d, ?_, ?_⟩
  · intro hsome
    cases ho : d.obj.rNs with
    | some r => exact rrConvertLegacy_of_some d r ho
    | none => rw [ho] at hsome; exact absurd hsome (by simp)
  · intro hleg
    obtain ⟨h1, h2, h3, h4⟩ := hleg
    cases ho : d.obj.rNs with
    | some r => exact rrConvertLegacy_of_some d r ho
    | none =>
        unfold rrConvertLegacy
        simp only [ho, h1, h2, h3, h4]
        have he : (⟨none, none, none, none⟩ : RNamespace) = emptyNS := rfl
        rw [if_pos he]

def c2tblW : TypeTable :=
  [("integer", ⟨[("OUTCONV", .byMode [("OUT", "as.numeric(%I%)")])], [], "int"⟩)]

def c2dW : FunctionDescriptor :=
  ⟨"w", "integer", [], false, none, ⟨none, none, none, none, none⟩⟩

def c2outW : RROut :=
  (rrGenerateFunction c2tblW "w" c2dW).toOption.getD ⟨"", [], c2dW⟩

set_option maxRecDepth 8000 in
/-- Claim C2 (witness): on a descriptor with no legacy keys the amended
theorem yields that the descriptor is left unchanged. -/
theorem c2_witness : c2outW.specOut = c2dW :=
  (c2_amended c2tblW "w" c2dW c2outW (by decide)).2.2.2.2.2.2 ⟨rfl, rfl, rfl, rfl⟩

lemma cPrefix_ne_empty (s : String) : "c_" ++ s ≠ "" := by
  intro h
  have h2 := congrArg String.data h
  rw [String.data_append] at h2
  simp at h2

lemma cPrefix_pct_free (s : String) (h : '%' ∉ s.data) : '%' ∉ ("c_" ++ s).data := by
  rw [String.data_append]
  intro hmem
  rcases List.mem_append.mp hmem with h1 | h1
  · simp at h1
  · exact h h1

/-! ## Claim C3 -/

/-- Claim C3 (counterexample): in the R dialect's call phase an OUT-mode
parameter contributes no call-site token even though its type defines a
non-empty CALL fragment: the emitted `.Call` argument list is empty
although the function has one parameter, refuting that in every
dialect every parameter regardless of mode contributes one token. -/
theorem c3_counterexample :
    rrCallLoop [("tC", ⟨[("CALL", .flat "foo")], [], "int"⟩)] "f"
        [⟨"r", "tC", .OUT, none, []⟩] = .ok ([], "f")
    ∧ ([] : List String).length ≠ [(⟨"r", "tC", .OUT, none, []⟩ : ParamSpec)].length := by
  exact ⟨by decide, by decide⟩

/-- Claim C3 (amended): only the C shim dialect's call phase considers
every parameter regardless of mode: each parameter yields exactly one
optional token, in parameter order, and the argument list is the
sequence of the non-suppressed tokens; the R dialect's call loop skips
every non-input parameter outright. -/
theorem c3_amended (tbl : TypeTable) (ps : List ParamSpec) :
    (∀ toks, rcCallTokens tbl ps = .ok toks →
        rcCallArgs tbl ps = .ok (toks.filterMap id) ∧ toks.length = ps.length)
  ∧ (∀ (nm : String) (p : ParamSpec) (rest : List ParamSpec), p.is_input = false →
        rrCallLoop tbl nm (p :: rest) = rrCallLoop tbl nm rest) := by
  constructor
  · intro toks h
    constructor
    · unfold rcCallArgs
      rw [h]
    · exact rcCallTokens_length tbl ps toks h
  · intro nm p rest hp
    simp only [rrCallLoop, hp, Bool.false_eq_true, if_false]

/-- Claim C3 (witness): the amended theorem evaluated on a singleton
parameter list: one token per parameter in the C dialect, and the R
dialect skipping an OUT parameter. -/
theorem c3_witness :
    (rcCallArgs [("t3", ⟨[], [], "int"⟩)] [⟨"x", "t3", .OUT, none, []⟩]
        = .ok ([some "c_x"].filterMap id)
      ∧ [some ("c_x" : String)].length = [(⟨"x", "t3", .OUT, none, []⟩ : ParamSpec)].length)
    ∧ rrCallLoop [("t3", ⟨[], [], "int"⟩)] "f" [⟨"x", "t3", .OUT, none, []⟩]
        = rrCallLoop [("t3", ⟨[], [], "int"⟩)] "f" [] :=
  ⟨(c3_amended [("t3", ⟨[], [], "int"⟩)] [⟨"x", "t3", .OUT, none, []⟩]).1
      [some "c_x"] (by decide),
   (c3_amended [("t3", ⟨[], [], "int"⟩)] [⟨"x", "t3", .OUT, none, []⟩]).2
      "f" ⟨"x", "t3", .OUT, none, []⟩ [] (by decide)⟩

/-! ## Claim C4 -/

/-- Claim C4 (counterexample): in the R dialect an OUT-mode parameter
whose type has no CALL rule at all does not appear in the `.Call`
argument list as the default native-reference token: the list is
empty. -/
theorem c4_counterexample :
    rrCallLoop [("tN", ⟨[], [], "int"⟩)] "f" [⟨"r", "tN", .OUT, none, []⟩] = .ok ([], "f")
    ∧ ([] : List String) ≠ [strReplace "r" "%I%" "r"] := by
  exact ⟨by decide, by decide⟩

/-- Claim C4 (amended): a parameter whose type rule defines CALL as the
empty string (flat, or mode-keyed at that parameter's mode in the C
dialect) contributes nothing to the native call argument list.  In the
C shim dialect a parameter whose type has no CALL rule contributes the
default token `c_<name>` whatever its mode; in the R dialect this
holds only for input-mode parameters, whose default token is the
dot-renamed display name, while non-input parameters never appear. -/
theorem c4_amended (tbl : TypeTable) (p : ParamSpec) (td : TypeDesc)
    (htd : List.lookup p.type tbl = some td) :
    (List.lookup "CALL" td.rules = some (.flat "") → rcCallToken tbl p = .ok none)
  ∧ (∀ m, List.lookup "CALL" td.rules = some (.byMode m) →
      List.lookup p.mode.modeStr m = some "" → rcCallToken tbl p = .ok none)
  ∧ (List.lookup "CALL" td.rules = none → '%' ∉ p.name.data →
      rcCallToken tbl p = .ok (some ("c_" ++ p.name)))
  ∧ (∀ (nm : String) rest parts nmF, p.is_input = true →
      List.lookup "CALL" td.rules = some (.flat "") →
      rrCallLoop tbl (strReplace p.name "_" ".") rest = .ok (parts, nmF) →
      rrCallLoop tbl nm (p :: rest) = .ok (parts, nmF))
  ∧ (∀ (nm : String) rest parts nmF, p.is_input = true →
      List.lookup "CALL" td.rules = none →
      strReplace p.name "_" "." ≠ "" →
      rrCallLoop tbl (strReplace p.name "_" ".") rest = .ok (parts, nmF) →
      rrCallLoop tbl nm (p :: rest)
        = .ok (strReplace (strReplace p.name "_" ".") "%I%" (strReplace p.name "_" ".")
            :: parts, nmF))
  ∧ (∀ (nm : String) rest, p.is_input = false →
      rrCallLoop tbl nm (p :: rest) = rrCallLoop tbl nm rest) := by
  have hg : getTypeDesc tbl p.type = .ok td := by
    unfold getTypeDesc
    rw [htd]
  refine ⟨?_, ?_, ?_, ?_, ?_, ?_⟩
  · intro hc
    unfold rcCallToken
    rw [hg]
    simp only [hc]
    rw [if_pos (by simp [rcCallResolve])]
  · intro m hc hm
    unfold rcCallToken
    rw [hg]
    simp only [hc]
    rw [if_pos (by simp [rcCallResolve, hm])]
  · intro hc hname
    unfold rcCallToken
    rw [hg]
    simp only [hc]
    have hne : ("c_" ++ p.name) ≠ "" := cPrefix_ne_empty p.name
    have hmem : '%' ∉ ("c_" ++ p.name).data := cPrefix_pct_free p.name hname
    rw [if_neg (by simp only [rcCallResolve]; exact hne)]
    simp only [rcCallResolve]
    rw [strReplace_pct_free _ _ _ (by rfl) hmem, strReplace_pct_free _ _ _ (by rfl) hmem]
  · intro nm rest parts nmF hin hc hrest
    simp only [rrCallLoop, hin, if_true, hg]
    simp [rrCallTok, hc, hrest]
  · intro nm rest parts nmF hin hc hnm hrest
    simp only [rrCallLoop, hin, if_true, hg]
    simp [rrCallTok, hc, hnm, hrest]
  · intro nm rest hp
    simp only [rrCallLoop, hp, Bool.false_eq_true, if_false]

/-- Claim C4 (witness): the amended theorem evaluated on concrete
inputs: an empty flat CALL suppresses the parameter in the C dialect,
and a missing CALL yields the default token. -/
theorem c4_witness :
    rcCallToken [("t4", ⟨[("CALL", .flat "")], [], "int"⟩)] ⟨"x", "t4", .IN, none, []⟩
      = .ok none
    ∧ rcCallToken [("t5", ⟨[], [], "int"⟩)] ⟨"y", "t5", .INOUT, none, []⟩
      = .ok (some ("c_" ++ "y")) :=
  ⟨(c4_amended [("t4", ⟨[("CALL", .flat "")], [], "int"⟩)] ⟨"x", "t4", .IN, none, []⟩
      ⟨[("CALL", .flat "")], [], "int"⟩ (by decide)).1 (by decide),
   (c4_amended [("t5", ⟨[], [], "int"⟩)] ⟨"y", "t5", .INOUT, none, []⟩
      ⟨[], [], "int"⟩ (by decide)).2.2.1 (by decide) (by decide)⟩

/-! ## More string lemmas (emptiness, heads, character membership) -/

lemma strReplace_empty (pat repl : String) : strReplace "" pat repl = "" := by
  unfold strReplace
  cases hd : pat.data with
  | nil => rfl
  | cons p ps =>
      show (⟨listReplaceGo p ps repl.data ("" : String).data.length ("" : String).data⟩ : String) = ""
      rw [show ("" : String).data = [] from rfl]
      rw [listReplaceGo_nil]

lemma substDepsIAux_empty (i : Nat) (deps : List String) : substDepsIAux i "" deps = "" := by
  induction deps generalizing i with
  | nil => rfl
  | cons d rest ih =>
      unfold substDepsIAux
      rw [strReplace_empty]
      exact ih (i + 1)

lemma substDepsI_empty (deps : List String) : substDepsI "" deps = "" :=
  substDepsIAux_empty 0 deps

lemma substDepsCAux_empty (i : Nat) (deps : List String) : substDepsCAux i "" deps = "" := by
  induction deps generalizing i with
  | nil => rfl
  | cons d rest ih =>
      unfold substDepsCAux
      rw [strReplace_empty]
      exact ih (i + 1)

lemma substDepsC_empty (deps : List String) : substDepsC "" deps = "" :=
  substDepsCAux_empty 0 deps

lemma patI_head (t : String) : ("%I" ++ t ++ "%").data.head? = some '%' := by
  rw [String.data_append, String.data_append]
  simp

lemma patC_head (t : String) : ("%C" ++ t ++ "%").data.head? = some '%' := by
  rw [String.data_append, String.data_append]
  simp

lemma substDepsIAux_pct_free (deps : List String) :
    ∀ (i : Nat) (s : String), '%' ∉ s.data → substDepsIAux i s deps = s := by
  induction deps with
  | nil => intro i s _; rfl
  | cons d rest ih =>
      intro i s hs
      unfold substDepsIAux
      rw [strReplace_pct_free _ _ _ (patI_head (toString (i + 1))) hs]
      exact ih (i + 1) s hs

lemma substDepsI_pct_free (deps : List String) (s : String) (hs : '%' ∉ s.data) :
    substDepsI s deps = s :=
  substDepsIAux_pct_free deps 0 s hs

lemma substDepsCAux_pct_free (deps : List String) :
    ∀ (i : Nat) (s : String), '%' ∉ s.data → substDepsCAux i s deps = s := by
  induction deps with
  | nil => intro i s _; rfl
  | cons d rest ih =>
      intro i s hs
      unfold substDepsCAux
      rw [strReplace_pct_free _ _ _ (patC_head (toString (i + 1))) hs]
      exact ih (i + 1) s hs

lemma substDepsC_pct_free (deps : List String) (s : String) (hs : '%' ∉ s.data) :
    substDepsC s deps = s :=
  substDepsCAux_pct_free deps 0 s hs

lemma listReplaceGo_head_ne (p : Char) (ps repl : List Char) (c : Char) (cs : List Char)
    (fuel : Nat) (h : p ≠ c) :
    listReplaceGo p ps repl (fuel + 1) (c :: cs) = c :: listReplaceGo p ps repl fuel cs := by
  simp [listReplaceGo, listStartsWith, h]

lemma strReplace_head_space (s pat repl : String)
    (hpat : pat.data.head? = some '%')
    (hs : s.data.head? = some ' ') :
    (strReplace s pat repl).data.head? = some ' ' := by
  cases hps : pat.data with
  | nil => rw [hps] at hpat; simp at hpat
  | cons p ps =>
      rw [hps] at hpat
      have hp : p = '%' := by injection hpat
      cases hss : s.data with
      | nil => rw [hss] at hs; simp at hs
      | cons c cs =>
          rw [hss] at hs
          have hcc : c = ' ' := by injection hs
          unfold strReplace
          rw [hps]
          show (⟨listReplaceGo p ps repl.data s.data.length s.data⟩ : String).data.head?
            = some ' '
          rw [hss, List.length_cons]
          rw [listReplaceGo_head_ne p ps repl.data c cs cs.length
            (by rw [hp, hcc]; decide)]
          simp [hcc]

lemma substDepsCAux_head_space (deps : List String) :
    ∀ (i : Nat) (s : String), s.data.head? = some ' ' →
      (substDepsCAux i s deps).data.head? = some ' ' := by
  induction deps with
  | nil => intro i s hs; exact hs
  | cons d rest ih =>
      intro i s hs
      unfold substDepsCAux
      exact ih (i + 1) _ (strReplace_head_space _ _ _ (patC_head (toString (i + 1))) hs)

lemma ne_empty_of_head_space (s : String) (h : s.data.head? = some ' ') : s ≠ "" := by
  intro he
  rw [he] at h
  simp at h

lemma twoSpace_head (s : String) : ("  " ++ s).data.head? = some ' ' := by
  rw [String.data_append]
  simp

lemma listReplaceGo_mem (p : Char) (ps repl : List Char) :
    ∀ (fuel : Nat) (l : List Char) (x : Char),
      x ∈ listReplaceGo p ps repl fuel l → x ∈ l ∨ x ∈ repl := by
  intro fuel
  induction fuel with
  | zero =>
      intro l x hx
      cases l with
      | nil => exact absurd hx (by simp [listReplaceGo])
      | cons c cs => exact Or.inl hx
  | succ f ih =>
      intro l x hx
      cases l with
      | nil => exact absurd hx (by simp [listReplaceGo])
      | cons c cs =>
          rw [listReplaceGo] at hx
          by_cases hst : listStartsWith (p :: ps) (c :: cs) = true
          · rw [if_pos hst] at hx
            rcases List.mem_append.mp hx with h1 | h1
            · exact Or.inr h1
            · rcases ih _ x h1 with h2 | h2
              · exact Or.inl (List.mem_cons_of_mem c (List.mem_of_mem_drop h2))
              · exact Or.inr h2
          · rw [if_neg hst] at hx
            rcases List.mem_cons.mp hx with h1 | h1
            · exact Or.inl (h1 ▸ List.mem_cons_self c cs)
            · rcases ih cs x h1 with h2 | h2
              · exact Or.inl (List.mem_cons_of_mem c h2)
              · exact Or.inr h2

lemma strReplace_mem (s pat repl : String) (x : Char)
    (h : x ∈ (strReplace s pat repl).data) : x ∈ s.data ∨ x ∈ repl.data := by
  unfold strReplace at h
  cases hps : pat.data with
  | nil => rw [hps] at h; exact Or.inl h
  | cons p ps =>
      rw [hps] at h
      exact listReplaceGo_mem p ps repl.data _ s.data x h

lemma dotted_pct_free (s : String) (h : '%' ∉ s.data) :
    '%' ∉ (strReplace s "_" ".").data := by
  intro hm
  rcases strReplace_mem s "_" "." '%' hm with h1 | h1
  · exact h h1
  · simp at h1

/-! ## Claim C5 -/

/-- Claim C5 (counterexample): an input parameter whose type defines
HEADER as the empty string but which carries a default value whose
translation is non-empty is not suppressed from the R signature: the
head list contains the stray entry `=1`. -/
theorem c5_counterexample :
    rrHeadList [("tE", ⟨[("HEADER", .flat "")], [("1", "1")], "int"⟩)] "f"
        [⟨"p", "tE", .IN, some "1", []⟩] = .ok (["=1"], [])
    ∧ (["=1"] : List String) ≠ [] := by
  exact ⟨by decide, by decide⟩

/-- Claim C5 (amended): an input parameter whose type defines HEADER as
the empty string and whose default value is absent or translates to
the empty string contributes nothing to the signature of either
dialect (with a non-empty translated default the R dialect emits a
stray `=<default>` entry, see the counterexample); the parameter still
participates in the declaration phase (one C declaration regardless of
HEADER) and in the input-conversion phase (a non-empty entry whenever
its INCONV rule is mode-keyed with the parameter's mode); a parameter
whose type has no HEADER rule contributes its bare name in the C
dialect and its dot-renamed display name in the R dialect. -/
theorem c5_amended (tbl : TypeTable) (p : ParamSpec) (td : TypeDesc)
    (htd : List.lookup p.type tbl = some td) :
    (List.lookup "HEADER" td.rules = some (.flat "") →
      (p.default = none ∨ ∃ d, p.default = some d ∧ td.translate_default_value d = "") →
      rrHeaderFrag tbl p = .ok "" ∧ rcHeaderEntry tbl p = .ok "")
  ∧ rcDeclEntry tbl p = .ok (td.ctype ++ " " ++ ("c_" ++ p.name) ++ ";")
  ∧ (∀ m s, List.lookup "INCONV" td.rules = some (.byMode m) →
      List.lookup p.mode.modeStr m = some s →
      ∃ r, rcInconvEntry tbl p = .ok r ∧ r ≠ "")
  ∧ (List.lookup "HEADER" td.rules = none → rcHeaderEntry tbl p = .ok p.name)
  ∧ (List.lookup "HEADER" td.rules = none → p.default = none → '%' ∉ p.name.data →
      strReplace p.name "_" "." ≠ "" →
      rrHeaderFrag tbl p = .ok (strReplace p.name "_" ".")) := by
  have hg : getTypeDesc tbl p.type = .ok td := by
    unfold getTypeDesc
    rw [htd]
  refine ⟨?_, ?_, ?_, ?_, ?_⟩
  · intro hh hdef
    have hbase : rrHeaderBase td p = .ok "" := by
      unfold rrHeaderBase
      simp only [hh]
      rw [if_pos trivial]
    have happ : rrApplyDefault td p "" = "" := by
      unfold rrApplyDefault
      rcases hdef with hnone | ⟨d, hd, ht⟩
      · simp only [hnone]
      · simp only [hd]
        rw [if_pos ht]
    constructor
    · unfold rrHeaderFrag
      rw [hg]
      simp only [hbase, happ]
      rw [substDepsI_empty]
    · unfold rcHeaderEntry
      rw [hg]
      simp only [hh]
      rw [if_pos trivial]
  · unfold rcDeclEntry
    rw [hg]
    simp only [TypeDesc.declare_c_variable]
  · intro m s hm hs
    have hsel : modeKeyedSelect (List.lookup "INCONV" td.rules) p.mode.modeStr
        = .ok ("  " ++ s) := by
      unfold modeKeyedSelect
      simp only [hm, hs]
    refine ⟨strReplace (strReplace (substDepsC ("  " ++ s) p.dependencies)
        "%C%" ("c_" ++ p.name)) "%I%" p.name, ?_, ?_⟩
    · unfold rcInconvEntry
      rw [hg]
      simp only [hsel]
    · apply ne_empty_of_head_space
      apply strReplace_head_space _ _ _ (by decide)
      apply strReplace_head_space _ _ _ (by decide)
      exact substDepsCAux_head_space p.dependencies 0 _ (twoSpace_head s)
  · intro hh
    unfold rcHeaderEntry
    rw [hg]
    simp only [hh]
  · intro hh hdnone hpct hne
    have hdot := dotted_pct_free p.name hpct
    have hbase : rrHeaderBase td p = .ok (strReplace p.name "_" ".") := by
      unfold rrHeaderBase
      simp only [hh]
      rw [if_neg hne]
      rw [strReplace_pct_free _ _ _ (by decide) hdot]
    have happ : rrApplyDefault td p (strReplace p.name "_" ".")
        = strReplace p.name "_" "." := by
      unfold rrApplyDefault
      simp only [hdnone]
    unfold rrHeaderFrag
    rw [hg]
    simp only [hbase, happ]
    rw [substDepsI_pct_free _ _ hdot]

/-- Claim C5 (witness): the amended theorem on concrete inputs: a
default-free parameter with an empty HEADER vanishes from both
signatures, and a parameter of a HEADER-less type keeps its bare
name. -/
theorem c5_witness :
    (rrHeaderFrag [("tE", ⟨[("HEADER", .flat "")], [], "int"⟩)]
          ⟨"p", "tE", .IN, none, []⟩ = .ok ""
      ∧ rcHeaderEntry [("tE", ⟨[("HEADER", .flat "")], [], "int"⟩)]
          ⟨"p", "tE", .IN, none, []⟩ = .ok "")
    ∧ rcHeaderEntry [("tQ", ⟨[], [], "int"⟩)] ⟨"q", "tQ", .IN, none, []⟩ = .ok "q" :=
  ⟨(c5_amended [("tE", ⟨[("HEADER", .flat "")], [], "int"⟩)] ⟨"p", "tE", .IN, none, []⟩
      ⟨[("HEADER", .flat "")], [], "int"⟩ (by decide)).1 (by decide) (Or.inl rfl),
   (c5_amended [("tQ", ⟨[], [], "int"⟩)] ⟨"q", "tQ", .IN, none, []⟩
      ⟨[], [], "int"⟩ (by decide)).2.2.2.1 (by decide)⟩

/-! ## Claim C6 -/

/-- Claim C6: the result expression of the output-conversion chunk is
selected by the number of output-mode parameters: with zero, the
result is the return type's OUTCONV rule keyed OUT (resolved by
`rcRetconv0`); with exactly one, the sole result is that parameter's
converted value (`result=<name>;`); with two or more, the values and
names are collected into the NEW_LIST/NEW_CHARACTER aggregate whose
`SET_VECTOR_ELT` and `SET_STRING_ELT` lines are position-aligned over
the output parameters in original parameter order (`outputNames`
filters the parameter list in order).  The R dialect's return section
likewise emits the return-type conversion only when there is no output
parameter. -/
theorem c6_return_shape (tbl : TypeTable) (desc : FunctionDescriptor) (outs : List String)
    (houts : rcOutconvEntries tbl desc.params = .ok outs) :
    (∀ rc, outputNames desc.params = [] → rcRetconv0 tbl desc.return_type = .ok rc →
        rcChunkOutconv tbl desc = .ok (String.intercalate "\n" outs ++ "\n" ++ rc))
  ∧ (∀ n, outputNames desc.params = [n] →
        rcChunkOutconv tbl desc
          = .ok (String.intercalate "\n" outs ++ "\n" ++ ("  result=" ++ n ++ ";")))
  ∧ (∀ (a b : String) (rest : List String), outputNames desc.params = a :: b :: rest →
        rcChunkOutconv tbl desc
          = .ok (String.intercalate "\n"
              (["  PROTECT(result=NEW_LIST(" ++ toString (a :: b :: rest).length ++ "));",
                "  PROTECT(names=NEW_CHARACTER(" ++ toString (a :: b :: rest).length ++ "));"]
               ++ outs ++ rcSetsLines (a :: b :: rest) ++ rcNamesLines (a :: b :: rest)
               ++ ["  SET_NAMES(result, names);",
                   "  UNPROTECT(" ++ toString ((a :: b :: rest).length + 1) ++ ");"])))
  ∧ (∀ (rp : List String) (j : Nat),
        (rcSetsLines rp).get? j
          = (rp.get? j).map
              (fun n => "  SET_VECTOR_ELT(result, " ++ toString j ++ ", " ++ n ++ ");")
        ∧ (rcNamesLines rp).get? j
          = (rp.get? j).map
              (fun n => "  SET_STRING_ELT(names, " ++ toString j
                ++ ", CREATE_STRING_VECTOR(\"" ++ n ++ "\"));")
        ∧ (rcSetsLines rp).length = rp.length ∧ (rcNamesLines rp).length = rp.length)
  ∧ outputNames desc.params = (desc.params.filter (·.is_output)).map (·.name)
  ∧ (∀ (outsR : List String) (x : String) (rpRest : List String),
        rrRetSection tbl desc.return_type outsR (x :: rpRest)
          = .ok (String.intercalate "\n" outsR ++ "\n"))
  ∧ (∀ (outsR : List String) (rt : TypeDesc) (m : List (String × String)) (s : String),
        List.lookup desc.return_type tbl = some rt →
        List.lookup "OUTCONV" rt.rules = some (.byMode m) →
        List.lookup "OUT" m = some s →
        rrRetSection tbl desc.return_type outsR []
          = .ok (String.intercalate "\n" outsR ++ "\n"
              ++ strReplace ("  " ++ s) "%I%" "res" ++ "\n")) := by
  refine ⟨?_, ?_, ?_, ?_, rfl, ?_, ?_⟩
  · intro rc h0 hrc
    unfold rcChunkOutconv
    simp only [houts, h0, hrc]
  · intro n h1
    unfold rcChunkOutconv
    simp only [houts, h1]
  · intro a b rest h2
    unfold rcChunkOutconv
    simp only [houts, h2]
  · intro rp j
    refine ⟨?_, ?_, rcSetsLinesFrom_length 0 rp, rcNamesLinesFrom_length 0 rp⟩
    · rw [show rcSetsLines rp = rcSetsLinesFrom 0 rp from rfl, rcSetsLinesFrom_get rp 0 j]
      simp
    · rw [show rcNamesLines rp = rcNamesLinesFrom 0 rp from rfl, rcNamesLinesFrom_get rp 0 j]
      simp
  · intro outsR x rpRest
    rfl
  · intro outsR rt m s hrt hoc hout
    have hg : getTypeDesc tbl desc.return_type = .ok rt := by
      unfold getTypeDesc
      rw [hrt]
    unfold rrRetSection
    simp only [hg, hoc, hout]

def c6tbl : TypeTable := [("vt", ⟨[("OUTCONV", .byMode [("OUT", "out(%C%)")])], [], "int"⟩)]

def c6desc : FunctionDescriptor :=
  ⟨"f6", "vt", [⟨"x", "vt", .OUT, none, []⟩, ⟨"y", "vt", .OUT, none, []⟩],
   false, none, ⟨none, none, none, none, none⟩⟩

/-- Claim C6 (witness): the theorem evaluated on a descriptor with two
output parameters `x`, `y`: the aggregate is built over exactly
`["x", "y"]` in that order. -/
theorem c6_witness :
    rcChunkOutconv c6tbl c6desc
      = .ok (String.intercalate "\n"
          (["  PROTECT(result=NEW_LIST(" ++ toString ("x" :: "y" :: ([] : List String)).length
              ++ "));",
            "  PROTECT(names=NEW_CHARACTER(" ++ toString ("x" :: "y" :: ([] : List String)).length
              ++ "));"]
           ++ ["  out(c_x)", "  out(c_y)"]
           ++ rcSetsLines ("x" :: "y" :: ([] : List String))
           ++ rcNamesLines ("x" :: "y" :: ([] : List String))
           ++ ["  SET_NAMES(result, names);",
               "  UNPROTECT(" ++ toString (("x" :: "y" :: ([] : List String)).length + 1)
                 ++ ");"])) :=
  (c6_return_shape c6tbl c6desc ["  out(c_x)", "  out(c_y)"] (by decide)).2.2.1
    "x" "y" [] (by decide)

/-! ## Claim C7 -/

/-- Claim C7 (counterexample): in the C dialect's input-conversion phase
a single non-mode-keyed INCONV template is not used for the
parameter's mode: the phase contributes nothing, refuting the claimed
flat-template fallback for every mode-sensitive phase of every
dialect. -/
theorem c7_counterexample :
    rcChunkInconv [("tF", ⟨[("INCONV", .flat "n_check(%I%);")], [], "int"⟩)]
        ⟨"f", "tF", [⟨"p", "tF", .IN, none, []⟩], false, none, ⟨none, none, none, none, none⟩⟩
      = .ok ""
    ∧ ("" : String) ≠ "  n_check(p);" := by
  exact ⟨by decide, by decide⟩

/-- Claim C7 (amended): the full mode-keyed/flat/nothing precedence
holds only in the C dialect's call phase (mode-keyed entry for the
parameter's mode; an absent entry contributes nothing; a flat template
is used for every mode; no rule yields the default token).  In the
input- and output-conversion phases of the C dialect a rule
contributes only when it is mode-keyed and contains the parameter's
mode; a flat rule whose text does not contain the mode string
contributes nothing.  The R dialect's input-conversion uses the
mode-keyed entry when present, falls back to the whole flat template
(when the mode string is not a substring of it), and fails with a
TypeError on a mode-keyed rule lacking the parameter's mode. -/
theorem c7_amended (tbl : TypeTable) (p : ParamSpec) (td : TypeDesc)
    (htd : List.lookup p.type tbl = some td) :
    (∀ m s, List.lookup "CALL" td.rules = some (.byMode m) →
        List.lookup p.mode.modeStr m = some s → s ≠ "" →
        rcCallToken tbl p
          = .ok (some (strReplace (strReplace s "%C%" ("c_" ++ p.name)) "%I%" p.name)))
  ∧ (∀ m, List.lookup "CALL" td.rules = some (.byMode m) →
        List.lookup p.mode.modeStr m = none → rcCallToken tbl p = .ok none)
  ∧ (∀ s, List.lookup "CALL" td.rules = some (.flat s) → s ≠ "" →
        rcCallToken tbl p
          = .ok (some (strReplace (strReplace s "%C%" ("c_" ++ p.name)) "%I%" p.name)))
  ∧ (∀ m, List.lookup "INCONV" td.rules = some (.byMode m) →
        List.lookup p.mode.modeStr m = none → rcInconvEntry tbl p = .ok "")
  ∧ (∀ s, List.lookup "INCONV" td.rules = some (.flat s) →
        strContainsB s p.mode.modeStr = false → rcInconvEntry tbl p = .ok "")
  ∧ (∀ s, List.lookup "OUTCONV" td.rules = some (.flat s) →
        strContainsB s p.mode.modeStr = false → rcOutconvEntry tbl p = .ok "")
  ∧ (∀ s, p.is_input = true → List.lookup "INCONV" td.rules = some (.flat s) →
        strContainsB s p.mode.modeStr = false →
        rrInconvFrag tbl p
          = .ok (substDepsI (strReplace ("  " ++ s) "%I%" (strReplace p.name "_" "."))
              p.dependencies))
  ∧ (∀ m, p.is_input = true → List.lookup "INCONV" td.rules = some (.byMode m) →
        List.lookup p.mode.modeStr m = none →
        rrInconvFrag tbl p
          = .error "TypeError: can only concatenate str (not dict) to str") := by
  have hg : getTypeDesc tbl p.type = .ok td := by
    unfold getTypeDesc
    rw [htd]
  refine ⟨?_, ?_, ?_, ?_, ?_, ?_, ?_, ?_⟩
  · intro m s hm hs hne
    unfold rcCallToken
    rw [hg]
    have hres : rcCallResolve (List.lookup "CALL" td.rules) p = s := by
      simp [rcCallResolve, hm, hs]
    simp only [hres]
    rw [if_neg hne]
  · intro m hm hmn
    unfold rcCallToken
    rw [hg]
    have hres : rcCallResolve (List.lookup "CALL" td.rules) p = "" := by
      simp [rcCallResolve, hm, hmn]
    simp only [hres]
    rw [if_pos trivial]
  · intro s hsflat hne
    unfold rcCallToken
    rw [hg]
    have hres : rcCallResolve (List.lookup "CALL" td.rules) p = s := by
      simp [rcCallResolve, hsflat]
    simp only [hres]
    rw [if_neg hne]
  · intro m hm hmn
    have hsel : modeKeyedSelect (List.lookup "INCONV" td.rules) p.mode.modeStr = .ok "" := by
      unfold modeKeyedSelect
      simp only [hm, hmn]
    unfold rcInconvEntry
    rw [hg]
    simp only [hsel]
    rw [substDepsC_empty, strReplace_empty, strReplace_empty]
  · intro s hsflat hc
    have hsel : modeKeyedSelect (List.lookup "INCONV" td.rules) p.mode.modeStr = .ok "" := by
      unfold modeKeyedSelect
      simp only [hsflat, hc, Bool.false_eq_true, if_false]
    unfold rcInconvEntry
    rw [hg]
    simp only [hsel]
    rw [substDepsC_empty, strReplace_empty, strReplace_empty]
  · intro s hsflat hc
    have hsel : modeKeyedSelect (List.lookup "OUTCONV" td.rules) p.mode.modeStr = .ok "" := by
      unfold modeKeyedSelect
      simp only [hsflat, hc, Bool.false_eq_true, if_false]
    unfold rcOutconvEntry
    rw [hg]
    simp only [hsel]
    rw [substDepsC_empty, strReplace_empty, strReplace_empty]
  · intro s hin hsflat hc
    have hsel : rrInconvSelectFor td p = .ok ("  " ++ s) := by
      unfold rrInconvSelectFor
      rw [hin]
      simp only [if_true, rrInconvSelect, hsflat, hc, Bool.false_eq_true, if_false]
    unfold rrInconvFrag
    rw [hg]
    simp only [hsel]
  · intro m hin hm hmn
    have hsel : rrInconvSelectFor td p
        = .error "TypeError: can only concatenate str (not dict) to str" := by
      unfold rrInconvSelectFor
      rw [hin]
      simp only [if_true, rrInconvSelect, hm, hmn]
    unfold rrInconvFrag
    rw [hg]
    simp only [hsel]

/-- Claim C7 (witness): the amended theorem on concrete inputs: a flat
INCONV template contributes nothing in the C dialect, while the C
dialect's call phase does use a flat CALL template. -/
theorem c7_witness :
    rcInconvEntry [("tG", ⟨[("INCONV", .flat "n_check(x);")], [], "int"⟩)]
        ⟨"p", "tG", .OUT, none, []⟩ = .ok ""
    ∧ rcCallToken [("tG2", ⟨[("CALL", .flat "&%C%")], [], "int"⟩)]
        ⟨"q", "tG2", .OUT, none, []⟩
      = .ok (some (strReplace (strReplace "&%C%" "%C%" ("c_" ++ "q")) "%I%" "q")) :=
  ⟨(c7_amended [("tG", ⟨[("INCONV", .flat "n_check(x);")], [], "int"⟩)]
      ⟨"p", "tG", .OUT, none, []⟩ ⟨[("INCONV", .flat "n_check(x);")], [], "int"⟩
      (by decide)).2.2.2.2.1 "n_check(x);" (by decide) (by decide),
   (c7_amended [("tG2", ⟨[("CALL", .flat "&%C%")], [], "int"⟩)]
      ⟨"q", "tG2", .OUT, none, []⟩ ⟨[("CALL", .flat "&%C%")], [], "int"⟩
      (by decide)).2.2.1 "&%C%" (by decide) (by decide)⟩

/-! ## Claim C8 -/

/-- Claim C8 (counterexample): the C dialect's input-conversion phase
does not substitute `%I<k>%` at all: with one declared dependency `d`
the template `%I1% and %C1%` resolves to `  %I1% and c_d`, keeping the
`%I1%` literal instead of the dependency's display name. -/
theorem c8_counterexample :
    rcInconvEntry [("tH", ⟨[("INCONV", .byMode [("IN", "%I1% and %C1%")])], [], "int"⟩)]
        ⟨"p", "tH", .IN, none, ["d"]⟩ = .ok "  %I1% and c_d"
    ∧ ("  %I1% and c_d" : String) ≠ "  d and c_d" := by
  exact ⟨by decide, by decide⟩

lemma substDepsI_two (s d1 d2 : String) :
    substDepsI s [d1, d2] = strReplace (strReplace s "%I1%" d1) "%I2%" d2 := rfl

lemma substDepsC_two (s d1 d2 : String) :
    substDepsC s [d1, d2]
      = strReplace (strReplace s "%C1%" ("c_" ++ d1)) "%C2%" ("c_" ++ d2) := rfl

/-- Claim C8 (amended): dependency substitution is 1-indexed but
per-dialect and per-family: the R dialect's loop replaces `%I<k>%` by
the k-th dependency's raw name (no underscore-to-dot renaming is
applied to dependency names), the C dialect's loop replaces `%C<k>%`
by `c_` plus the k-th dependency's name, and neither loop touches the
other family's indexed placeholders (shown here for a parameter with
two dependencies whose names contain no `%`). -/
theorem c8_amended (d1 d2 : String) (h1 : '%' ∉ d1.data) (h2 : '%' ∉ d2.data) :
    substDepsI "%I1%" [d1, d2] = d1
  ∧ substDepsI "%I2%" [d1, d2] = d2
  ∧ substDepsC "%C1%" [d1, d2] = "c_" ++ d1
  ∧ substDepsC "%C2%" [d1, d2] = "c_" ++ d2
  ∧ substDepsI "%C1%" [d1, d2] = "%C1%"
  ∧ substDepsC "%I1%" [d1, d2] = "%I1%" := by
  refine ⟨?_, ?_, ?_, ?_, ?_, ?_⟩
  · rw [substDepsI_two, strReplace_self "%I1%" d1 (by decide),
        strReplace_pct_free d1 "%I2%" d2 (by decide) h1]
  · rw [substDepsI_two, strReplace_not_contains "%I2%" "%I1%" d1 (by decide),
        strReplace_self "%I2%" d2 (by decide)]
  · rw [substDepsC_two, strReplace_self "%C1%" ("c_" ++ d1) (by decide),
        strReplace_pct_free ("c_" ++ d1) "%C2%" ("c_" ++ d2) (by decide)
          (cPrefix_pct_free d1 h1)]
  · rw [substDepsC_two, strReplace_not_contains "%C2%" "%C1%" ("c_" ++ d1) (by decide),
        strReplace_self "%C2%" ("c_" ++ d2) (by decide)]
  · rw [substDepsI_two, strReplace_not_contains "%C1%" "%I1%" d1 (by decide),
        strReplace_not_contains "%C1%" "%I2%" d2 (by decide)]
  · rw [substDepsC_two, strReplace_not_contains "%I1%" "%C1%" ("c_" ++ d1) (by decide),
        strReplace_not_contains "%I1%" "%C2%" ("c_" ++ d2) (by decide)]

/-- Claim C8 (witness): the amended theorem at dependency names `a_b`
and `len`: `%I1%` resolves to the raw `a_b` (not `a.b`) and `%C2%` to
`c_len`. -/
theorem c8_witness :
    substDepsI "%I1%" ["a_b", "len"] = "a_b"
    ∧ substDepsC "%C2%" ["a_b", "len"] = "c_" ++ "len" :=
  ⟨(c8_amended "a_b" "len" (by decide) (by decide)).1,
   (c8_amended "a_b" "len" (by decide) (by decide)).2.2.2.1⟩

/-! ## Claim C9 -/

/-- Claim C9: generation is deterministic across repeated runs.  In this
embedding both generators are pure functions, so equal inputs trivially
give byte-identical output; the substantive residue of the claim is
that the R dialect's only state change (the in-place legacy-namespace
conversion on the descriptor, see C2) does not change the output of a
repeated run: running generate_function again on the descriptor the
first run left behind reproduces the identical result, text, diagnostics
and descriptor included. -/
theorem c9_determinism (tbl : TypeTable) (fn : String) (d : FunctionDescriptor)
    (out : RROut) (h : rrGenerateFunction tbl fn d = .ok out) :
    rrGenerateFunction tbl fn out.specOut = .ok out := by
  have hs := rrGenerate_specOut tbl fn d out h
  rw [hs]
  unfold rrGenerateFunction at h ⊢
  rw [rrConvertLegacy_params, rrConvertLegacy_return_type, rrConvertLegacy_is_internal,
      getNameR_convertLegacy, rrConvertLegacy_idem]
  exact h

def c9tbl : TypeTable :=
  [("gt", ⟨[("OUTCONV", .byMode [("OUT", "%I% <- g(%I%)")])], [], "int"⟩)]

def c9d : FunctionDescriptor :=
  ⟨"f9", "gt", [], false, none, ⟨none, none, some "a, b", none, none⟩⟩

def c9out : RROut := (rrGenerateFunction c9tbl "f9" c9d).toOption.getD ⟨"", [], c9d⟩

set_option maxRecDepth 8000 in
/-- Claim C9 (witness): a second run on the descriptor left behind by
the first run (which converted the legacy GATTR-PARAM-R key) returns
the identical result. -/
theorem c9_witness : rrGenerateFunction c9tbl "f9" c9out.specOut = .ok c9out :=
  c9_determinism c9tbl "f9" c9d c9out (by decide)

/-! ## Claim C10 -/

/-- Claim C10 (counterexample): an input parameter whose type defines
HEADER as the empty string is suppressed from the generated C header
(zero SEXP parameters) yet is still counted by the registration
arity (`_count_arguments` skips only DEPRECATED/NULL types), so the
registration entry's argument count disagrees with the header. -/
theorem c10_counterexample :
    rcHeaderArgs [("tE2", ⟨[("HEADER", .flat "")], [], "int"⟩)]
        [⟨"p", "tE2", .IN, none, []⟩] = .ok []
    ∧ (countArguments
        ⟨"f", "tE2", [⟨"p", "tE2", .IN, none, []⟩], false, none,
          ⟨none, none, none, none, none⟩⟩).1 = 1
    ∧ ([] : List String).length ≠ 1 := by
  exact ⟨by decide, by decide, by decide⟩

/-- Claim C10 (amended): the registration arity is the number of
input-mode parameters whose type is neither DEPRECATED nor NULL; it
equals the number of SEXP parameters in the generated `R_<name>` header
whenever every input parameter resolves to a non-empty header fragment
and has no DEPRECATED/NULL type — in that case the forward declaration
lists exactly one SEXP per header parameter. -/
theorem c10_amended (tbl : TypeTable) (desc : FunctionDescriptor)
    (h : ∀ p ∈ desc.params, p.is_input = true →
      ∃ s, rcHeaderEntry tbl p = .ok s ∧ s ≠ "" ∧ p.type ≠ "DEPRECATED" ∧ p.type ≠ "NULL") :
    ∃ l, rcHeaderArgs tbl desc.params = .ok l ∧ l.length = (countArguments desc).1
    ∧ rinitDeclaration desc
        = "extern SEXP R_" ++ desc.name ++ "("
          ++ String.intercalate ", " (List.replicate l.length "SEXP") ++ ");\n" := by
  obtain ⟨l, hl, hlen⟩ := rcHeaderArgs_length tbl desc.params h
  have hcount : l.length = (countArguments desc).1 := by
    rw [hlen, countArguments_fst]
  refine ⟨l, hl, hcount, ?_⟩
  unfold rinitDeclaration
  rw [hcount]

/-- Claim C10 (witness): the amended theorem on a descriptor with one
IN and one OUT parameter of an ordinary type: one SEXP argument in
both the header and the registration count. -/
theorem c10_witness :
    ∃ l, rcHeaderArgs [("it", ⟨[], [], "int"⟩)]
        (⟨"f10", "it", [⟨"n", "it", .IN, none, []⟩, ⟨"r", "it", .OUT, none, []⟩],
          false, none, ⟨none, none, none, none, none⟩⟩ : FunctionDescriptor).params = .ok l
      ∧ l.length
        = (countArguments
            ⟨"f10", "it", [⟨"n", "it", .IN, none, []⟩, ⟨"r", "it", .OUT, none, []⟩],
              false, none, ⟨none, none, none, none, none⟩⟩).1
      ∧ rinitDeclaration
          ⟨"f10", "it", [⟨"n", "it", .IN, none, []⟩, ⟨"r", "it", .OUT, none, []⟩],
            false, none, ⟨none, none, none, none, none⟩⟩
        = "extern SEXP R_" ++ "f10" ++ "("
          ++ String.intercalate ", " (List.replicate l.length "SEXP") ++ ");\n" :=
  c10_amended [("it", ⟨[], [], "int"⟩)]
    ⟨"f10", "it", [⟨"n", "it", .IN, none, []⟩, ⟨"r", "it", .OUT, none, []⟩],
      false, none, ⟨none, none, none, none, none⟩⟩
    (by intro p hp hin
        fin_cases hp
        · exact ⟨"n", by decide, by decide, by decide, by decide⟩
        · exact absurd hin (by decide))
